import Mathlib

/-!
Verification of the tmeta relation-metadata engine.

This file gives a shallow embedding of the core of the `tmeta` Go package and
its `tmetadbr` query builder: the registry (`Meta`, `TableInfo`,
`ParseTypeNamed`, `SetTableInfo`, lookups), the relation descriptors, the
relation-target introspection (`RelationTargetPtr`), and the query generators
(`UpdateByID`, `SelectRelationPtr`, `DeleteRelationNotIn`,
`InsertRelationIgnore`).

Embedding conventions:
- Go struct types are `GoType` values: a type name (standing for the
  `reflect.Type` identity) plus the flattened list of exported fields as
  produced by `exportedFieldIndexes` (promoted fields of embedded structs
  appear directly in the list).
- Field values are `GoValue`; a record instance is a `GoRecord` pairing each
  field with its value.  Value-level pointer indirection (`derefValue` on a
  non-pointer) is the identity and is not represented.
- Fallible Go functions return `GoResult`: `ok`, `err` (a returned `error`;
  message texts are abbreviated, their content is not load bearing), or
  `panicked` (a Go runtime panic, e.g. an index out of range, a method call
  on a nil pointer receiver that reads a field, `reflect.Value.Set` on an
  unaddressable value, or `Len`/`Type`/`Addr` on the zero `reflect.Value`).
- String functions (`camelToSnake` and friends) follow the source algorithm
  with the Unicode character classes restricted to ASCII, which is where all
  claim-relevant inputs live.
-/

set_option autoImplicit false

namespace Tmeta

/-- Result of running a fallible piece of Go code: a normal value, a returned
`error`, or a runtime panic. -/
inductive GoResult (α : Type) where
  | ok (a : α)
  | err (msg : String)
  | panicked
  deriving Repr, DecidableEq

/-- Scalar Go value, tagged with the kind `reflect.Value.Kind` would report;
`goNil` is a nil interface (the zero `reflect.Value` after `ValueOf`). -/
inductive GoScalar where
  | goNil
  | goString (s : String)
  | goInt (n : Int)
  | goUint (n : Nat)
  | goInt32 (n : Int)
  | goUint32 (n : Nat)
  | goInt64 (n : Int)
  | goUint64 (n : Nat)
  deriving Repr, DecidableEq

/-- Dynamic (interface-typed) value held in a record field: a scalar, or a
slice of scalars (the shape of a `belongs_to_many_ids` identifier list). -/
inductive GoValue where
  | scalar (s : GoScalar)
  | goSlice (elems : List GoScalar)
  deriving Repr, DecidableEq

/-- Shorthand for a string-valued field. -/
def vstr (s : String) : GoValue := .scalar (.goString s)

/-- Shorthand for an int-valued field. -/
def vint (n : Int) : GoValue := .scalar (.goInt n)

/-- Reference to a Go type as it appears in a struct field declaration:
a named (struct or scalar) type, a pointer to a type, or a slice. -/
inductive GoTypeRef where
  | named (n : String)
  | ptr (t : GoTypeRef)
  | slice (t : GoTypeRef)
  deriving Repr, DecidableEq

/-- derefType strips pointers from a type (tmeta util). -/
def derefTypeRef : GoTypeRef → GoTypeRef
  | .ptr t => derefTypeRef t
  | t => t

/-- elemDerefType strips pointers, and if the result is a slice, strips
pointers from its element type (tmetadbr util). -/
def elemDerefTypeRef (t : GoTypeRef) : GoTypeRef :=
  match derefTypeRef t with
  | .slice e => derefTypeRef e
  | u => u

/-- Name of the underlying named type, used as the `reflect.Type` identity for
registry lookups; a slice type is not a named struct type and never matches a
registered entry. -/
def refTypeName : GoTypeRef → Option String
  | .named n => some n
  | .ptr t => refTypeName t
  | .slice _ => none

/-- Split a character list at every occurrence of the separator
(Go `strings.Split` with a one-character separator: the empty input yields
one empty part). -/
def splitOnChar (sep : Char) : List Char → List (List Char)
  | [] => [[]]
  | c :: rest =>
    let r := splitOnChar sep rest
    if c == sep then [] :: r
    else
      match r with
      | [] => [[c]]
      | g :: gs => (c :: g) :: gs

/-- String wrapper around `splitOnChar`. -/
def goSplitChar (s : String) (sep : Char) : List String :=
  (splitOnChar sep s.toList).map String.mk

/-- Key and value halves at the first `=` (none when there is no `=`). -/
def splitKVChars : List Char → List Char × Option (List Char)
  | [] => ([], none)
  | c :: rest =>
    if c == '=' then ([], some rest)
    else
      let r := splitKVChars rest
      (c :: r.1, r.2)

/-- Go `strings.SplitN(part, "=", 2)` as used by `structTagToValues`: the key
is the text before the first `=`, the value the remainder (empty if no `=`). -/
def splitKeyValue (part : String) : String × String :=
  let r := splitKVChars part.toList
  (String.mk r.1, String.mk (r.2.getD []))

/-- The `url.Values` built by `structTagToValues`: association list with
`Set` semantics (setting a key replaces its value). -/
abbrev TagValues : Type := List (String × String)

/-- url.Values.Set: replace the value for the key, or add it. -/
def tvSet : TagValues → String → String → TagValues
  | [], k, v => [(k, v)]
  | p :: rest, k, v =>
    if p.1 == k then (k, v) :: rest else p :: tvSet rest k v

/-- structTagToValues splits the tag on commas and `Set`s each `key=value`
(or bare `key`) pair. -/
def structTagToValues (st : String) : TagValues :=
  (goSplitChar st ',').foldl (fun acc part =>
    let kv := splitKeyValue part
    tvSet acc kv.1 kv.2) []

/-- url.Values.Get: first value for the key, empty string if absent. -/
def tvGet (tv : TagValues) (k : String) : String :=
  ((tv.find? (fun p => p.1 == k)).map Prod.snd).getD ""

/-- Whether `len(tagv[k]) > 0`: the key was present in the tag. -/
def tvHas (tv : TagValues) (k : String) : Bool :=
  (tv.find? (fun p => p.1 == k)).isSome

/-- Character class used by the camelcase splitter (1 lower, 2 upper,
3 digit, 4 other); ASCII fragment of the Go unicode classes. -/
def charClass (c : Char) : Nat :=
  if c.isLower then 1 else if c.isUpper then 2 else if c.isDigit then 3 else 4

/-- Group consecutive characters of the same class (the first loop of the
borrowed camelcase `split`). -/
def groupRunes : List Char → List (List Char)
  | [] => []
  | c :: rest =>
    match groupRunes rest with
    | [] => [[c]]
    | g :: gs =>
      match g with
      | [] => [c] :: gs
      | d :: _ => if charClass c = charClass d then (c :: g) :: gs else [c] :: g :: gs

/-- Second loop of `split`: when an upper-case run is followed by a
lower-case run, its last character moves to the front of the following run
(e.g. "PDFL","oader" becomes "PDF","Loader"); the loop then examines the
modified successor against the next run. -/
def fixPairsGo (cur : List Char) : List (List Char) → List (List Char)
  | [] => [cur]
  | b :: rest =>
    if headIsUpper cur && headIsLower b then
      cur.dropLast :: fixPairsGo (cur.getLast?.toList ++ b) rest
    else
      cur :: fixPairsGo b rest
where
  headIsUpper : List Char → Bool
    | c :: _ => c.isUpper
    | [] => false
  headIsLower : List Char → Bool
    | c :: _ => c.isLower
    | [] => false

/-- Entry point of the pair-fixing loop. -/
def fixPairs : List (List Char) → List (List Char)
  | [] => []
  | g :: gs => fixPairsGo g gs

/-- The camelcase `split`, dropping runs emptied by the second loop. -/
def splitCamel (src : String) : List String :=
  ((fixPairs (groupRunes src.toList)).filter (fun g => g.length > 0)).map
    (fun g => String.mk g)

/-- ASCII lower-casing (Go `strings.ToLower` on ASCII input). -/
def lowerStr (s : String) : String :=
  String.mk (s.toList.map Char.toLower)

/-- Go `strings.Join`. -/
def joinWith (sep : String) : List String → String
  | [] => ""
  | [x] => x
  | x :: rest => x ++ sep ++ joinWith sep rest

/-- camelToSnake lower-cases the camelcase parts and joins them with
underscores. -/
def camelToSnake (s : String) : String :=
  joinWith "_" ((splitCamel s).map (fun p => lowerStr p))

/-- Go `strings.Replace(s, old, "", 1)`: remove the first occurrence of
`old` (with `old = ""`, Go inserts the empty replacement, leaving `s`
unchanged). -/
def listRemoveFirst (pat : List Char) : List Char → List Char
  | [] => []
  | c :: rest =>
    if pat.isPrefixOf (c :: rest) then (c :: rest).drop pat.length
    else c :: listRemoveFirst pat rest

/-- String wrapper around `listRemoveFirst`. -/
def goReplace1 (s old : String) : String :=
  String.mk (listRemoveFirst old.toList s.toList)

/-- Go `strings.Trim(s, "_")`. -/
def goTrimUnderscores (s : String) : String :=
  String.mk (((s.toList.dropWhile (fun c => c == '_')).reverse.dropWhile
    (fun c => c == '_')).reverse)

/-- Go `strings.Contains`. -/
def goContains (s sub : String) : Bool :=
  decide (sub.toList <:+: s.toList)

/-- Go `strings.TrimSuffix`. -/
def goTrimSuffix (s suf : String) : String :=
  if suf.toList <:+ s.toList then
    String.mk (s.toList.take (s.toList.length - suf.toList.length))
  else s

/-- Go `strings.TrimPrefix`. -/
def goStripLead (s pre : String) : String :=
  if pre.toList.isPrefixOf s.toList then String.mk (s.toList.drop pre.toList.length)
  else s

/-- An exported struct field: Go name, raw `db` tag, raw `tmeta` tag, and the
declared field type. -/
structure GoField where
  goName : String
  dbTag : String
  tmetaTag : String
  typeRef : GoTypeRef
  deriving Repr, DecidableEq

/-- A Go struct type: its `reflect.Type` name (identity) and the flattened
exported-field list (`exportedFieldIndexes` order). -/
structure GoType where
  typeName : String
  fields : List GoField
  deriving Repr, DecidableEq

/-- First comma-separated part of the `db` tag (`strings.Split(tag, ",")[0]`,
identical to the `SplitN(..., 2)[0]` used elsewhere). -/
def dbName (f : GoField) : String :=
  (goSplitChar f.dbTag ',').headD ""

/-- A field is storage mapped unless its `db` tag is empty or `-`. -/
def storageMapped (f : GoField) : Bool :=
  !(dbName f == "" || dbName f == "-")

/-- The five relation descriptor kinds; every kind carries the relation name
and the Go value field it populates. -/
inductive Relation where
  | belongsTo (name goValueField sqlIDField : String)
  | hasMany (name goValueField sqlOtherIDField : String)
  | hasOne (name goValueField sqlOtherIDField : String)
  | belongsToMany (name goValueField joinName sqlIDField sqlOtherIDField : String)
  | belongsToManyIDs (name goValueField joinName sqlIDField sqlOtherIDField : String)
  deriving Repr, DecidableEq

/-- RelationName accessor shared by the five kinds. -/
def Relation.relationName : Relation → String
  | .belongsTo n _ _ => n
  | .hasMany n _ _ => n
  | .hasOne n _ _ => n
  | .belongsToMany n _ _ _ _ => n
  | .belongsToManyIDs n _ _ _ _ => n

/-- RelationGoValueField accessor shared by the five kinds. -/
def Relation.relationGoValueField : Relation → String
  | .belongsTo _ f _ => f
  | .hasMany _ f _ => f
  | .hasOne _ f _ => f
  | .belongsToMany _ f _ _ _ => f
  | .belongsToManyIDs _ f _ _ _ => f

/-- Association-list map assignment (`m[k] = v`): replace the entry for the
key in place, or add one (registry maps have at most one entry per key). -/
def assocSet {α : Type} : List (String × α) → String → α → List (String × α)
  | [], k, v => [(k, v)]
  | p :: rest, k, v =>
    if p.1 == k then (k, v) :: rest else p :: assocSet rest k v

/-- Association-list map lookup (`m[k]`, `none` when absent). -/
def assocGet {α : Type} (m : List (String × α)) (k : String) : Option α :=
  (m.find? (fun p => p.1 == k)).map Prod.snd

/-- Per-type table metadata (TableInfo of the source). -/
structure TableInfo where
  name : String := ""
  sqlName : String := ""
  goType : GoType := ⟨"", []⟩
  sqlPKFields : List String := []
  pkAutoIncr : Bool := false
  sqlVersionField : String := ""
  relationMap : List (String × Relation) := []
  deriving Repr, DecidableEq

/-- SetSQLName. -/
def TableInfo.setSQLName (ti : TableInfo) (s : String) : TableInfo :=
  { ti with sqlName := s }

/-- SetName: also adopts the name as the SQL name when none was set. -/
def TableInfo.setName (ti : TableInfo) (n : String) : TableInfo :=
  let ti := { ti with name := n }
  if ti.sqlName == "" then ti.setSQLName n else ti

/-- SetGoType: when the logical name is still empty, derives it from the Go
type name via camelToSnake. -/
def TableInfo.setGoType (ti : TableInfo) (t : GoType) : TableInfo :=
  let ti := { ti with goType := t }
  if ti.name == "" then ti.setName (camelToSnake t.typeName) else ti

/-- IsSQLPKField: membership in the primary-key field list. -/
def TableInfo.isSQLPKField (ti : TableInfo) (sqlName : String) : Bool :=
  ti.sqlPKFields.contains sqlName

/-- SQLFields: the db-tagged columns of the Go type, keeping primary-key
columns only when `withPK`. -/
def TableInfo.SQLFields (ti : TableInfo) (withPK : Bool) : List String :=
  ti.goType.fields.foldl (fun ret f =>
    let sfdb := dbName f
    if sfdb == "" || sfdb == "-" then ret
    else if !ti.isSQLPKField sfdb || withPK then ret ++ [sfdb]
    else ret) []

/-- SQLPKWhere: `key1 = ? AND key2 = ?` built by appending " AND f = ?" per
key and trimming the leading " AND ". -/
def TableInfo.SQLPKWhere (ti : TableInfo) : String :=
  goStripLead
    (ti.sqlPKFields.foldl (fun buf fn => buf ++ " AND " ++ fn ++ " = ?") "")
    " AND "

/-- AddRelation: stores the relation in the relation map under its name. -/
def TableInfo.addRelation (ti : TableInfo) (r : Relation) : TableInfo :=
  { ti with relationMap := assocSet ti.relationMap r.relationName r }

/-- RelationNamed: map lookup. -/
def TableInfo.relationNamed (ti : TableInfo) (n : String) : Option Relation :=
  assocGet ti.relationMap n

/-- A record instance: the struct type name plus each flattened field with
its current value. -/
structure GoRecord where
  typeName : String
  flds : List (GoField × GoValue)
  deriving Repr, DecidableEq

/-- The `reflect.Type` of a record. -/
def GoRecord.goType (o : GoRecord) : GoType :=
  ⟨o.typeName, o.flds.map Prod.fst⟩

/-- reflect `FieldByName` read: value of the first field with the Go name,
`none` when the struct has no such field (the zero `reflect.Value`). -/
def fieldByGoName (o : GoRecord) (gn : String) : Option GoValue :=
  (o.flds.find? (fun p => p.1.goName == gn)).map Prod.snd

/-- Write through a field address: replaces the value of the first field with
the Go name (no-op when absent, which callers exclude). -/
def setFieldList (gn : String) (v : GoValue) :
    List (GoField × GoValue) → List (GoField × GoValue)
  | [] => []
  | p :: rest =>
    if p.1.goName == gn then (p.1, v) :: rest else p :: setFieldList gn v rest

/-- Record after a write through a field address. -/
def setFieldByGoName (o : GoRecord) (gn : String) (v : GoValue) : GoRecord :=
  ⟨o.typeName, setFieldList gn v o.flds⟩

/-- sqlFieldValue via sqlFieldIndex: value of the first storage-mapped field
whose db name matches, nil interface when the lookup misses. -/
def sqlFieldValue (o : GoRecord) (sqlName : String) : GoValue :=
  match o.flds.find? (fun p => storageMapped p.1 && dbName p.1 == sqlName) with
  | some p => p.2
  | none => .scalar .goNil

/-- PKValues: the record's values for each primary-key field in order. -/
def TableInfo.PKValues (ti : TableInfo) (o : GoRecord) : List GoValue :=
  ti.sqlPKFields.map (fun sfn => sqlFieldValue o sfn)

/-- SQLValueMap: map of db column to value over the record's fields,
omitting primary keys unless `includePks`. -/
def TableInfo.SQLValueMap (ti : TableInfo) (o : GoRecord) (includePks : Bool) :
    List (String × GoValue) :=
  o.flds.foldl (fun ret p =>
    let sfdb := dbName p.1
    if sfdb == "" || sfdb == "-" then ret
    else if !ti.isSQLPKField sfdb || includePks then assocSet ret sfdb p.2
    else ret) []

/-- The registry: map from Go type identity (type name) to TableInfo. -/
abbrev Meta : Type := List (String × TableInfo)

/-- ForType (the map read `tableInfoMap[t]`). -/
def ForTypeKey (m : Meta) (tn : String) : Option TableInfo :=
  assocGet m tn

/-- typeForName: scan the registry for the entry whose logical name matches
and return its type key. -/
def typeForName (m : Meta) (n : String) : Option String :=
  (m.find? (fun p => p.2.name == n)).map Prod.fst

/-- ForName: ForType of typeForName (nil type yields nil). -/
def ForName (m : Meta) (n : String) : Option TableInfo :=
  match typeForName m n with
  | none => none
  | some t => ForTypeKey m t

/-- SetTableInfo: delete the entry previously registered under the same
logical name, then assign the TableInfo under the type key. -/
def SetTableInfo (m : Meta) (tyName : String) (ti : TableInfo) : Meta :=
  let m :=
    match typeForName m ti.name with
    | none => m
    | some k => m.filter (fun p => !(p.1 == k))
  assocSet m tyName ti

/-- ForType on a field type reference: dereference pointers, then look up
the named type (slice and scalar types are never registered). -/
def ForTypeRef (m : Meta) (r : GoTypeRef) : Option TableInfo :=
  match refTypeName (derefTypeRef r) with
  | none => none
  | some n => ForTypeKey m n

/-- Meta.For on a record instance (pointers already dereferenced). -/
def metaFor (m : Meta) (o : GoRecord) : Option TableInfo :=
  ForTypeKey m o.typeName

/-- RelationTargetPtr: nil for an unknown relation; otherwise the address of
the relation's declared value field (panics, via `Addr` on the zero value,
when the field does not exist on the record). -/
def RelationTargetPtr (rm : List (String × Relation)) (o : GoRecord)
    (n : String) : GoResult (Option String) :=
  match assocGet rm n with
  | none => .ok none
  | some r =>
    match fieldByGoName o r.relationGoValueField with
    | none => .panicked
    | some _ => .ok (some r.relationGoValueField)

/-- Relation name defaulting: the `relation_name` option, else snake case of
the Go field name. -/
def defaultRelName (tagv : TagValues) (f : GoField) : String :=
  let n := tvGet tagv "relation_name"
  if n == "" then camelToSnake f.goName else n

/-- Constructor selector for the two many-to-many blocks, which differ only
in the relation kind they build. -/
def mkBTMRel (isIDs : Bool) (name gvf joinName idf oidf : String) : Relation :=
  if isIDs then .belongsToManyIDs name gvf joinName idf oidf
  else .belongsToMany name gvf joinName idf oidf

/-- The shared body of the `belongs_to_many` and `belongs_to_many_ids`
blocks of ParseTypeNamed: requires `join_name`; defaults `sql_id_field` to
`ti.SQLPKFields()[0]` (a panic — index out of range — when no key field has
been accumulated yet); guesses `sql_other_id_field` by removing the first
occurrence of the entity name from the join name, erroring when that leaves
the join name unchanged, and otherwise trimming underscores and appending
`_id`. -/
def buildBTM (ti : TableInfo) (f : GoField) (tagv : TagValues) (isIDs : Bool) :
    GoResult TableInfo :=
  let name := defaultRelName tagv f
  let joinName := tvGet tagv "join_name"
  if joinName == "" then
    .err ("join_name not specified for relation " ++ name)
  else
    let sqlIDFieldOpt :=
      let s := tvGet tagv "sql_id_field"
      if s == "" then ti.sqlPKFields.head? else some s
    match sqlIDFieldOpt with
    | none => .panicked
    | some sqlIDField =>
      let so := tvGet tagv "sql_other_id_field"
      if so == "" then
        let s := goReplace1 joinName ti.name
        if s == joinName then
          .err ("sql_other_id_field is required for relation " ++ name)
        else
          .ok (ti.addRelation
            (mkBTMRel isIDs name f.goName joinName sqlIDField
              (goTrimUnderscores s ++ "_id")))
      else
        .ok (ti.addRelation (mkBTMRel isIDs name f.goName joinName sqlIDField so))

/-- The three infallible relation blocks of ParseTypeNamed (belongs_to,
has_many, has_one), in source order. -/
def processSimpleRelations (ti : TableInfo) (f : GoField) : TableInfo :=
  let tagv := structTagToValues f.tmetaTag
  let ti :=
    if tvHas tagv "belongs_to" then
      let name := defaultRelName tagv f
      let sqlIDField :=
        let s := tvGet tagv "sql_id_field"
        if s == "" then camelToSnake f.goName ++ "_id" else s
      ti.addRelation (.belongsTo name f.goName sqlIDField)
    else ti
  let ti :=
    if tvHas tagv "has_many" then
      let name := defaultRelName tagv f
      let soif :=
        let s := tvGet tagv "sql_other_id_field"
        if s == "" then ti.name ++ "_id" else s
      ti.addRelation (.hasMany name f.goName soif)
    else ti
  if tvHas tagv "has_one" then
    let name := defaultRelName tagv f
    let soif :=
      let s := tvGet tagv "sql_other_id_field"
      if s == "" then ti.name ++ "_id" else s
    ti.addRelation (.hasOne name f.goName soif)
  else ti

/-- The five relation blocks of ParseTypeNamed, in source order; the first
three cannot fail, the two many-to-many blocks can. -/
def processRelations (ti : TableInfo) (f : GoField) : GoResult TableInfo :=
  let tagv := structTagToValues f.tmetaTag
  let ti := processSimpleRelations ti f
  match (if tvHas tagv "belongs_to_many" then buildBTM ti f tagv false else .ok ti) with
  | .err e => .err e
  | .panicked => .panicked
  | .ok ti =>
    if tvHas tagv "belongs_to_many_ids" then buildBTM ti f tagv true else .ok ti

/-- The key/version tail of the per-field walk: fields without a db tag are
skipped; a `pk` field is appended to the key list (setting the auto-incr
flag when tagged) and the walk continues, so its `version` tag is never
examined; otherwise a `version` tag sets the version field. -/
def processKeyVersion (ti : TableInfo) (f : GoField) : TableInfo :=
  if dbName f == "" || dbName f == "-" then ti
  else if tvHas (structTagToValues f.tmetaTag) "pk" then
    if tvHas (structTagToValues f.tmetaTag) "auto_incr" then
      { ti with sqlPKFields := ti.sqlPKFields ++ [dbName f], pkAutoIncr := true }
    else { ti with sqlPKFields := ti.sqlPKFields ++ [dbName f] }
  else if tvHas (structTagToValues f.tmetaTag) "version" then
    { ti with sqlVersionField := dbName f }
  else ti

/-- One iteration of the field walk of ParseTypeNamed. -/
def processField (ti : TableInfo) (f : GoField) : GoResult TableInfo :=
  match processRelations ti f with
  | .ok ti => .ok (processKeyVersion ti f)
  | .err e => .err e
  | .panicked => .panicked

/-- The field walk of ParseTypeNamed. -/
def parseFieldsLoop (ti : TableInfo) : List GoField → GoResult TableInfo
  | [] => .ok ti
  | f :: rest =>
    match processField ti f with
    | .ok ti => parseFieldsLoop ti rest
    | .err e => .err e
    | .panicked => .panicked

/-- ParseTypeNamed without the registry write: SetName, SetGoType, the field
walk, and the final check that at least one primary-key field was found. -/
def parseTableInfo (t : GoType) (name : String) : GoResult TableInfo :=
  let ti := TableInfo.setGoType (TableInfo.setName {} name) t
  match parseFieldsLoop ti t.fields with
  | .ok ti =>
    if ti.sqlPKFields.length < 1 then
      .err ("no primary key fields found for type " ++ t.typeName)
    else .ok ti
  | .err e => .err e
  | .panicked => .panicked

/-- ParseTypeNamed: on success the TableInfo is stored as if by
SetTableInfo; on error or panic the registry is not touched (the only write
is the final SetTableInfo). -/
def ParseTypeNamed (m : Meta) (t : GoType) (name : String) : Meta × GoResult Unit :=
  match parseTableInfo t name with
  | .ok ti => (SetTableInfo m t.typeName ti, .ok ())
  | .err e => (m, .err e)
  | .panicked => (m, .panicked)

/-- ParseType: ParseTypeNamed with the name derived from the Go type name. -/
def ParseType (m : Meta) (t : GoType) : Meta × GoResult Unit :=
  ParseTypeNamed m t (camelToSnake t.typeName)

/-- SQL dialect of the dbr session (the `dbrDialect` detection hack is
modelled as a stored field). -/
inductive Dialect where
  | sqlite3
  | mysql
  | postgres
  | other
  deriving Repr, DecidableEq

/-- tmetadbr Builder: the session's dialect and the registry. -/
structure Builder where
  dialect : Dialect
  meta : Meta
  deriving Repr, DecidableEq

/-- Generated UPDATE: table, SET map, and WHERE conjuncts with their
positional parameters. -/
structure UpdateStmt where
  table : String
  setMap : List (String × GoValue)
  wheres : List (String × List GoValue)
  deriving Repr, DecidableEq

/-- Generated SELECT: column list, FROM table, JOIN clauses
(table, on-condition), WHERE conjuncts with parameters. -/
structure SelectStmt where
  columns : List String
  fromTable : String
  joins : List (String × String)
  wheres : List (String × List GoValue)
  deriving Repr, DecidableEq

/-- Generated DELETE: table and WHERE conjuncts with parameters. -/
structure DeleteStmt where
  table : String
  wheres : List (String × List GoValue)
  deriving Repr, DecidableEq

/-- Generated raw-SQL INSERT (InsertBySql): statement text and parameters. -/
structure InsertStmt where
  sql : String
  args : List GoValue
  deriving Repr, DecidableEq

/-- Kinds accepted by the switch in incrementInteger. -/
def isSupportedIntKind : GoValue → Bool
  | .scalar (.goInt _) => true
  | .scalar (.goUint _) => true
  | .scalar (.goInt32 _) => true
  | .scalar (.goUint32 _) => true
  | .scalar (.goInt64 _) => true
  | .scalar (.goUint64 _) => true
  | _ => false

/-- incrementInteger of the source: `vv := reflect.ValueOf(v)` is never
addressable, so each switch case's `vv.Set(...)` panics at run time; no case
returns, so the function otherwise falls through to
`return nil, fmt.Errorf("%T is not a supported integer type", v)`.  A nil
interface panics earlier, at `vv.Type()` on the zero value.  Consequently
the function never returns a successfully incremented value. -/
def incrementInteger (v : GoValue) : GoResult GoValue :=
  match v with
  | .scalar .goNil => .panicked
  | _ =>
    if isSupportedIntKind v then .panicked
    else .err "value is not a supported integer type"

/-- UpdateByID.  Note two slips transcribed from the source: the block
`curVer := vmap[...]` redeclares (shadows) the outer `var curVer
interface{}`, so the version WHERE clause appended at the end binds the
outer value, which is still nil (`curVerOuter` below); and because
incrementInteger never returns a value, the `.ok` continuation below is
unreachable whenever the version field is non-empty.  The UpdateTimeToucher
hook is a no-op for records that do not implement it and is not modelled. -/
def UpdateByID (b : Builder) (o : GoRecord) : GoResult UpdateStmt :=
  match metaFor b.meta o with
  | none => .err "tmetadbr: type not registered"
  | some ti =>
    let vmap := ti.SQLValueMap o false
    let curVerOuter : GoValue := .scalar .goNil
    if ti.sqlVersionField == "" then
      .ok ⟨ti.sqlName, vmap, [(ti.SQLPKWhere, ti.PKValues o)]⟩
    else
      let curVer := (assocGet vmap ti.sqlVersionField).getD (.scalar .goNil)
      match incrementInteger curVer with
      | .err e => .err e
      | .panicked => .panicked
      | .ok newVer =>
        .ok ⟨ti.sqlName, assocSet vmap ti.sqlVersionField newVer,
          [(ti.SQLPKWhere, ti.PKValues o),
           (ti.sqlVersionField ++ " = ?", [curVerOuter])]⟩

/-- stringsAddPrefix of the source util. -/
def stringsAddPre (slist : List String) (pre : String) : List String :=
  slist.map (fun s => pre ++ s)

/-- Field entry (declaration and value) found by reflect FieldByName. -/
def fieldEntryByGoName (o : GoRecord) (gn : String) : Option (GoField × GoValue) :=
  o.flds.find? (fun p => p.1.goName == gn)

/-- SelectRelationPtr: the per-kind select generation.  The second component
of the result is the field pointer returned via RelationTargetPtr, modelled
as the Go name of the relation's value field.  Panics transcribe the
source's nil dereferences: `gvf.Type()` on a missing value field,
`targetTI`/`joinTI` method calls when the lookup returned nil (no nil check
in the two many-to-many branches), `SQLPKFields()[0]` and `PKValues(o)[0]`
on empty key lists. -/
def SelectRelationPtr (b : Builder) (o : GoRecord) (relationName : String) :
    GoResult (SelectStmt × String) :=
  match metaFor b.meta o with
  | none => .err "tmetadbr: type not registered"
  | some ti =>
  match ti.relationNamed relationName with
  | none => .err ("relation not found: " ++ relationName)
  | some rel =>
  match rel with
  | .belongsTo _ gvf sqlIDField =>
    match fieldEntryByGoName o gvf with
    | none => .panicked
    | some p =>
      match ForTypeRef b.meta (derefTypeRef p.1.typeRef) with
      | none => .err "target type is not registered"
      | some targetTI =>
        match targetTI.sqlPKFields with
        | [] => .panicked
        | tpk0 :: _ =>
          .ok (⟨targetTI.SQLFields true, targetTI.sqlName, [],
                [(tpk0 ++ " = ?", [sqlFieldValue o sqlIDField])]⟩, gvf)
  | .hasMany _ gvf soif =>
    match fieldEntryByGoName o gvf with
    | none => .panicked
    | some p =>
      match ForTypeRef b.meta (elemDerefTypeRef p.1.typeRef) with
      | none => .err "target type is not registered"
      | some targetTI =>
        match ti.PKValues o with
        | [] => .panicked
        | pk0 :: _ =>
          .ok (⟨targetTI.SQLFields true, targetTI.sqlName, [],
                [(soif ++ " = ?", [pk0])]⟩, gvf)
  | .hasOne _ gvf soif =>
    match fieldEntryByGoName o gvf with
    | none => .panicked
    | some p =>
      match ForTypeRef b.meta (derefTypeRef p.1.typeRef) with
      | none => .err "target type is not registered"
      | some targetTI =>
        match ti.PKValues o with
        | [] => .panicked
        | pk0 :: _ =>
          .ok (⟨targetTI.SQLFields true, targetTI.sqlName, [],
                [(soif ++ " = ?", [pk0])]⟩, gvf)
  | .belongsToMany _ gvf joinName idf oidf =>
    match fieldEntryByGoName o gvf with
    | none => .panicked
    | some p =>
      let joinTIOpt := ForName b.meta joinName
      match ForTypeRef b.meta (elemDerefTypeRef p.1.typeRef) with
      | none => .panicked
      | some targetTI =>
        match joinTIOpt with
        | none => .panicked
        | some joinTI =>
          match targetTI.sqlPKFields with
          | [] => .panicked
          | tpk0 :: _ =>
            match ti.PKValues o with
            | [] => .panicked
            | pk0 :: _ =>
              .ok (⟨stringsAddPre (targetTI.SQLFields true) (targetTI.sqlName ++ "."),
                    joinTI.sqlName,
                    [(targetTI.sqlName,
                      joinTI.sqlName ++ "." ++ oidf ++ " = " ++
                        targetTI.sqlName ++ "." ++ tpk0)],
                    [(joinTI.sqlName ++ "." ++ idf ++ " = ?", [pk0])]⟩, gvf)
  | .belongsToManyIDs _ gvf joinName idf oidf =>
    match ForName b.meta joinName with
    | none => .panicked
    | some joinTI =>
      match ti.PKValues o with
      | [] => .panicked
      | pk0 :: _ =>
        match fieldEntryByGoName o gvf with
        | none => .panicked
        | some _ =>
          .ok (⟨[oidf], joinTI.sqlName, [], [(idf ++ " = ?", [pk0])]⟩, gvf)

/-- DeleteRelationNotIn: join-table delete for a BelongsToManyIDs relation;
the NOT IN conjunct is added only when the identifier slice is non-empty
(its single parameter is the whole slice). -/
def DeleteRelationNotIn (b : Builder) (o : GoRecord) (relationName : String) :
    GoResult DeleteStmt :=
  match metaFor b.meta o with
  | none => .err "tmetadbr: type not registered"
  | some ti =>
  match ti.relationNamed relationName with
  | none => .err ("relation not found: " ++ relationName)
  | some rel =>
  match rel with
  | .belongsToManyIDs _ gvf joinName idf oidf =>
    match ForName b.meta joinName with
    | none => .panicked
    | some joinTI =>
      match ti.PKValues o with
      | [] => .panicked
      | pk0 :: _ =>
        match fieldByGoName o gvf with
        | none => .panicked
        | some (.scalar _) => .panicked
        | some (.goSlice ids) =>
          let stmt : DeleteStmt := ⟨joinTI.sqlName, [(idf ++ " = ?", [pk0])]⟩
          if ids.length > 0 then
            .ok ⟨stmt.table, stmt.wheres ++ [(oidf ++ " NOT IN ?", [.goSlice ids])]⟩
          else .ok stmt
  | _ => .err "unsupported relation type for DeleteRelationNotIn"

/-- The VALUES placeholder text built by the loop of InsertRelationIgnore:
one `(?,?),` appended per identifier (the trailing comma is trimmed by the
caller). -/
def buildPlaceholders : Nat → String
  | 0 => ""
  | n + 1 => buildPlaceholders n ++ "(?,?),"

/-- InsertRelationIgnore: batched duplicate-tolerant insert of
`(this_id, other_id)` pairs for a BelongsToManyIDs relation, with one SQL
idiom per dialect; `.ok none` (Go `nil, nil`) when the identifier slice is
empty. -/
def InsertRelationIgnore (b : Builder) (o : GoRecord) (relationName : String) :
    GoResult (Option InsertStmt) :=
  match metaFor b.meta o with
  | none => .err "tmetadbr: type not registered"
  | some ti =>
  match ti.relationNamed relationName with
  | none => .err ("relation not found: " ++ relationName)
  | some rel =>
  match rel with
  | .belongsToManyIDs _ gvf joinName idf oidf =>
    let joinTIOpt := ForName b.meta joinName
    match ti.PKValues o with
    | [] => .panicked
    | thisID :: _ =>
      match fieldByGoName o gvf with
      | none => .panicked
      | some (.scalar _) => .panicked
      | some (.goSlice ids) =>
        if ids.length == 0 then .ok none
        else
          let valueStr := goTrimSuffix (buildPlaceholders ids.length) ","
          let args := (ids.map (fun x => [thisID, GoValue.scalar x])).flatten
          match b.dialect with
          | .sqlite3 =>
            match joinTIOpt with
            | none => .panicked
            | some joinTI =>
              .ok (some ⟨"INSERT OR IGNORE INTO " ++ joinTI.sqlName ++
                "(" ++ idf ++ "," ++ oidf ++ ")" ++ " VALUES " ++ valueStr, args⟩)
          | .mysql =>
            match joinTIOpt with
            | none => .panicked
            | some joinTI =>
              .ok (some ⟨"INSERT IGNORE INTO " ++ joinTI.sqlName ++
                "(" ++ idf ++ "," ++ oidf ++ ")" ++ " VALUES " ++ valueStr, args⟩)
          | .postgres =>
            match joinTIOpt with
            | none => .panicked
            | some joinTI =>
              .ok (some ⟨"INSERT INTO " ++ joinTI.sqlName ++
                "(" ++ idf ++ "," ++ oidf ++ ")" ++ " VALUES " ++ valueStr ++
                " ON CONFLICT DO NOTHING", args⟩)
          | .other => .err "unknown dialect"
  | _ => .err "unsupported relation type for DeleteRelationNotIn"

/-! Concrete fixtures: the entity shapes of the package's README examples,
used to instantiate the theorems below. -/

/-- The Go string type. -/
def stringRef : GoTypeRef := .named "string"

/-- Book with a belongs_to_many_ids category list (README example). -/
def bookType : GoType :=
  ⟨"Book",
   [⟨"BookID", "book_id", "pk", stringRef⟩,
    ⟨"Title", "title", "", stringRef⟩,
    ⟨"CategoryIDList", "-", "belongs_to_many_ids,join_name=book_category",
      .slice stringRef⟩]⟩

/-- The book_category join table. -/
def bookCategoryType : GoType :=
  ⟨"BookCategory",
   [⟨"BookID", "book_id", "pk", stringRef⟩,
    ⟨"CategoryID", "category_id", "pk", stringRef⟩]⟩

/-- Category (README example). -/
def categoryType : GoType :=
  ⟨"Category",
   [⟨"CategoryID", "category_id", "pk", stringRef⟩,
    ⟨"Name", "name", "", stringRef⟩]⟩

/-- Author with a has_many book list (README example). -/
def authorType : GoType :=
  ⟨"Author",
   [⟨"AuthorID", "author_id", "pk", stringRef⟩,
    ⟨"NomDePlume", "nom_de_plume", "", stringRef⟩,
    ⟨"BookList", "-", "has_many", .slice (.named "Book")⟩]⟩

/-- Book as the has_many target (README example: carries author_id). -/
def bookAType : GoType :=
  ⟨"Book",
   [⟨"BookID", "book_id", "pk", stringRef⟩,
    ⟨"AuthorID", "author_id", "", stringRef⟩,
    ⟨"Title", "title", "", stringRef⟩]⟩

/-- CategoryInfo, the has_one target (README example). -/
def categoryInfoType : GoType :=
  ⟨"CategoryInfo",
   [⟨"CategoryInfoID", "category_info_id", "pk", stringRef⟩,
    ⟨"CategoryID", "category_id", "", stringRef⟩]⟩

/-- Category with a has_one CategoryInfo (README example). -/
def categoryHType : GoType :=
  ⟨"Category",
   [⟨"CategoryID", "category_id", "pk", stringRef⟩,
    ⟨"Name", "name", "", stringRef⟩,
    ⟨"CategoryInfo", "-", "has_one", .ptr (.named "CategoryInfo")⟩]⟩

/-- Widget with an int64 optimistic-lock version column. -/
def widgetType : GoType :=
  ⟨"Widget",
   [⟨"WidgetID", "widget_id", "pk", stringRef⟩,
    ⟨"Name", "name", "", stringRef⟩,
    ⟨"Version", "version", "version", .named "int64"⟩]⟩

/-- Widget variant whose version column is a string. -/
def swidgetType : GoType :=
  ⟨"SWidget",
   [⟨"SWidgetID", "s_widget_id", "pk", stringRef⟩,
    ⟨"Version", "version", "version", stringRef⟩]⟩

/-- Register a list of types through ParseType, starting from empty. -/
def parseAll (ts : List GoType) : Meta :=
  ts.foldl (fun m t => (ParseType m t).1) []

/-- Registry for the join-table scenario. -/
def metaJoin : Meta := parseAll [bookType, bookCategoryType, categoryType]

/-- Registry for the has_many scenario. -/
def metaAuthor : Meta := parseAll [authorType, bookAType]

/-- Registry for the has_one scenario. -/
def metaHasOne : Meta := parseAll [categoryHType, categoryInfoType]

/-- Registry holding the int64-versioned widget. -/
def metaWidget : Meta := parseAll [widgetType]

/-- Registry holding the string-versioned widget. -/
def metaSWidget : Meta := parseAll [swidgetType]

/-- A Book record whose category identifier list is `ids`. -/
def bookRec (ids : List GoScalar) : GoRecord :=
  ⟨"Book",
   [(⟨"BookID", "book_id", "pk", stringRef⟩, vstr "book_0001"),
    (⟨"Title", "title", "", stringRef⟩, vstr "Enders Game"),
    (⟨"CategoryIDList", "-", "belongs_to_many_ids,join_name=book_category",
       .slice stringRef⟩, .goSlice ids)]⟩

/-- An Author record (the value of the relation field is never read by the
query generators, only its declared type is). -/
def authorRec : GoRecord :=
  ⟨"Author",
   [(⟨"AuthorID", "author_id", "pk", stringRef⟩, vstr "author_0001"),
    (⟨"NomDePlume", "nom_de_plume", "", stringRef⟩, vstr "OSC"),
    (⟨"BookList", "-", "has_many", .slice (.named "Book")⟩, .goSlice [])]⟩

/-- A Category record for the has_one scenario. -/
def categoryHRec : GoRecord :=
  ⟨"Category",
   [(⟨"CategoryID", "category_id", "pk", stringRef⟩, vstr "category_0001"),
    (⟨"Name", "name", "", stringRef⟩, vstr "Science Fiction"),
    (⟨"CategoryInfo", "-", "has_one", .ptr (.named "CategoryInfo")⟩,
      .scalar .goNil)]⟩

/-- A Widget record whose stored version is the int64 value 5. -/
def widgetRec : GoRecord :=
  ⟨"Widget",
   [(⟨"WidgetID", "widget_id", "pk", stringRef⟩, vstr "w1"),
    (⟨"Name", "name", "", stringRef⟩, vstr "Widget A"),
    (⟨"Version", "version", "version", .named "int64"⟩, .scalar (.goInt64 5))]⟩

/-- A SWidget record whose stored version is a string. -/
def swidgetRec : GoRecord :=
  ⟨"SWidget",
   [(⟨"SWidgetID", "s_widget_id", "pk", stringRef⟩, vstr "sw1"),
    (⟨"Version", "version", "version", stringRef⟩, vstr "seven")]⟩

/-! Helper lemmas shared by several theorems. -/

/-- Map assignment followed by lookup of the same key yields the assigned
value. -/
theorem assocGet_assocSet_self {α : Type} (m : List (String × α)) (k : String)
    (v : α) : assocGet (assocSet m k v) k = some v := by
  induction m with
  | nil => simp [assocSet, assocGet]
  | cons p rest ih =>
    by_cases hp : p.1 == k
    · simp [assocSet, assocGet, hp]
    · simp only [assocSet, hp, Bool.false_eq_true, if_false]
      unfold assocGet at ih ⊢
      simp only [List.find?_cons, hp]
      exact ih

/-! ## C1: optimistic-locking update -/

/-- C1 (code bug): UpdateByID never yields the claimed statement when the
entity has a version field.  For the registered Widget whose stored version
is the int64 value 5, the call panics inside incrementInteger
(`reflect.Value.Set` on an unaddressable value); for a string version it
returns the type error; incrementInteger itself already panics on every
supported integer representation (and returns `nil` plus an error in all
other cases, having no return statement inside its switch), so no increment
is ever produced — and even on the unreachable success path the version
WHERE clause would bind the shadowed-nil outer `curVer`. -/
theorem updateByID_version_never_succeeds :
    UpdateByID ⟨.sqlite3, metaWidget⟩ widgetRec = .panicked ∧
    UpdateByID ⟨.sqlite3, metaSWidget⟩ swidgetRec =
      .err "value is not a supported integer type" ∧
    incrementInteger (.scalar (.goInt64 5)) = .panicked ∧
    (metaFor metaWidget widgetRec).map (fun ti => ti.sqlVersionField) =
      some "version" ∧
    (metaFor metaWidget widgetRec).map (fun ti => ti.sqlPKFields) =
      some ["widget_id"] := by
  refine ⟨by decide, by decide, by decide, by decide, by decide⟩

/-! ## C2: join-table delete-not-in -/

/-- C2: for a BelongsToManyIDs relation, DeleteRelationNotIn deletes from
the join table where the own-side join key equals the record's first
key-field value, adding the other-side NOT IN conjunct (whose single
parameter is the identifier slice) exactly when the desired identifier set
is non-empty. -/
theorem deleteRelationNotIn_reconciles (b : Builder) (o : GoRecord)
    (n : String) (ti joinTI : TableInfo)
    (rname gvf joinName idf oidf k : String) (ks : List String)
    (ids : List GoScalar)
    (hti : metaFor b.meta o = some ti)
    (hrel : ti.relationNamed n =
      some (.belongsToManyIDs rname gvf joinName idf oidf))
    (hjoin : ForName b.meta joinName = some joinTI)
    (hpk : ti.sqlPKFields = k :: ks)
    (hfld : fieldByGoName o gvf = some (.goSlice ids)) :
    DeleteRelationNotIn b o n =
      .ok ⟨joinTI.sqlName,
        (idf ++ " = ?", [sqlFieldValue o k]) ::
          (if ids.isEmpty then []
           else [(oidf ++ " NOT IN ?", [.goSlice ids])])⟩ := by
  have hpkv : ti.PKValues o =
      sqlFieldValue o k :: ks.map (fun s => sqlFieldValue o s) := by
    simp [TableInfo.PKValues, hpk]
  unfold DeleteRelationNotIn
  simp only [hti, hrel, hjoin, hpkv, hfld]
  cases ids <;> simp

/-- Witness for C2 at the README Book/BookCategory fixtures, in both the
non-empty and the empty identifier-set cases. -/
theorem deleteRelationNotIn_reconciles_witness :
    DeleteRelationNotIn ⟨.sqlite3, metaJoin⟩
        (bookRec [.goString "c1", .goString "c2"]) "category_id_list" =
      .ok ⟨"book_category",
        [("book_id = ?", [vstr "book_0001"]),
         ("category_id NOT IN ?",
          [.goSlice [.goString "c1", .goString "c2"]])]⟩ ∧
    DeleteRelationNotIn ⟨.sqlite3, metaJoin⟩ (bookRec []) "category_id_list" =
      .ok ⟨"book_category", [("book_id = ?", [vstr "book_0001"])]⟩ := by
  constructor
  · exact (deleteRelationNotIn_reconciles ⟨.sqlite3, metaJoin⟩
      (bookRec [.goString "c1", .goString "c2"]) "category_id_list"
      ((ForTypeKey metaJoin "Book").getD {})
      ((ForName metaJoin "book_category").getD {})
      "category_id_list" "CategoryIDList" "book_category" "book_id"
      "category_id" "book_id" [] [.goString "c1", .goString "c2"]
      (by decide) (by decide) (by decide) (by decide) (by decide)).trans
      (by decide)
  · exact (deleteRelationNotIn_reconciles ⟨.sqlite3, metaJoin⟩
      (bookRec []) "category_id_list"
      ((ForTypeKey metaJoin "Book").getD {})
      ((ForName metaJoin "book_category").getD {})
      "category_id_list" "CategoryIDList" "book_category" "book_id"
      "category_id" "book_id" [] []
      (by decide) (by decide) (by decide) (by decide) (by decide)).trans
      (by decide)

/-! ## C3: join-table insert-or-ignore -/

/-- Spec-side text of the claim's VALUES list: `(?,?),(?,?),...`, one pair
per identifier, comma separated. -/
def specPlaceholders : Nat → String
  | 0 => ""
  | 1 => "(?,?)"
  | n + 2 => specPlaceholders (n + 1) ++ ",(?,?)"

/-- Spec-side parameter list of the claim: the record's first key value
alternating with each identifier in slice order. -/
def alternatingArgs (thisID : GoValue) : List GoScalar → List GoValue
  | [] => []
  | x :: rest => thisID :: .scalar x :: alternatingArgs thisID rest

/-- Trimming the trailing comma undoes appending one. -/
theorem goTrimSuffix_append_comma (s : String) :
    goTrimSuffix (s ++ ",") "," = s := by
  have hdata : (s ++ ",").toList = s.toList ++ [','] := by
    show (s ++ ",").data = s.data ++ [',']
    rw [String.data_append]
  have hsuf : (",").toList <:+ (s ++ ",").toList := by
    rw [hdata]
    exact List.suffix_append s.toList [',']
  unfold goTrimSuffix
  rw [if_pos hsuf, hdata]
  apply String.ext
  have hlen : (s.toList ++ [',']).length - (",").toList.length = s.toList.length := by
    simp
  show (s.toList ++ [',']).take ((s.toList ++ [',']).length - (",").toList.length)
      = s.data
  rw [hlen]
  exact List.take_left s.toList [',']

/-- The loop's placeholder text is the claim's comma-separated pair list
followed by one trailing comma. -/
theorem buildPlaceholders_succ_eq (n : Nat) :
    buildPlaceholders (n + 1) = specPlaceholders (n + 1) ++ "," := by
  induction n with
  | zero => decide
  | succ m ih =>
    show buildPlaceholders (m + 1) ++ "(?,?)," =
      (specPlaceholders (m + 1) ++ ",(?,?)") ++ ","
    rw [ih, String.append_assoc, String.append_assoc]
    congr 1

/-- The loop's appended argument pairs equal the claim's alternating list. -/
theorem flatten_pairs_eq_alternating (thisID : GoValue) (ids : List GoScalar) :
    (ids.map (fun y => [thisID, GoValue.scalar y])).flatten =
      alternatingArgs thisID ids := by
  induction ids with
  | nil => rfl
  | cons x rest ih => simp [alternatingArgs, ih]

/-- C3: for a BelongsToManyIDs relation, InsertRelationIgnore returns no
statement and no error on an empty identifier set; on a non-empty set it
builds one batched insert whose parameters alternate the record's first
key value with each identifier in slice order, in the dialect-specific
duplicate-tolerant idiom (INSERT OR IGNORE for SQLite3, INSERT IGNORE for
MySQL, ON CONFLICT DO NOTHING for Postgres). -/
theorem insertRelationIgnore_dialects (d : Dialect) (m : Meta) (o : GoRecord)
    (n : String) (ti joinTI : TableInfo)
    (rname gvf joinName idf oidf k : String) (ks : List String)
    (ids : List GoScalar)
    (hti : metaFor m o = some ti)
    (hrel : ti.relationNamed n =
      some (.belongsToManyIDs rname gvf joinName idf oidf))
    (hjoin : ForName m joinName = some joinTI)
    (hpk : ti.sqlPKFields = k :: ks)
    (hfld : fieldByGoName o gvf = some (.goSlice ids)) :
    (ids = [] → InsertRelationIgnore ⟨d, m⟩ o n = .ok none) ∧
    (ids ≠ [] →
      InsertRelationIgnore ⟨d, m⟩ o n =
        (match d with
         | .sqlite3 =>
           .ok (some ⟨"INSERT OR IGNORE INTO " ++ joinTI.sqlName ++
             "(" ++ idf ++ "," ++ oidf ++ ")" ++ " VALUES " ++
             specPlaceholders ids.length,
             alternatingArgs (sqlFieldValue o k) ids⟩)
         | .mysql =>
           .ok (some ⟨"INSERT IGNORE INTO " ++ joinTI.sqlName ++
             "(" ++ idf ++ "," ++ oidf ++ ")" ++ " VALUES " ++
             specPlaceholders ids.length,
             alternatingArgs (sqlFieldValue o k) ids⟩)
         | .postgres =>
           .ok (some ⟨"INSERT INTO " ++ joinTI.sqlName ++
             "(" ++ idf ++ "," ++ oidf ++ ")" ++ " VALUES " ++
             specPlaceholders ids.length ++ " ON CONFLICT DO NOTHING",
             alternatingArgs (sqlFieldValue o k) ids⟩)
         | .other => .err "unknown dialect")) := by
  have hpkv : ti.PKValues o =
      sqlFieldValue o k :: ks.map (fun s => sqlFieldValue o s) := by
    simp [TableInfo.PKValues, hpk]
  constructor
  · intro h
    subst h
    unfold InsertRelationIgnore
    simp only [hti, hrel, hjoin, hpkv, hfld]
    simp
  · intro hne
    obtain ⟨x, rest, hx⟩ : ∃ x rest, ids = x :: rest := by
      cases ids with
      | nil => exact absurd rfl hne
      | cons x rest => exact ⟨x, rest, rfl⟩
    subst hx
    have hval : goTrimSuffix (buildPlaceholders (rest.length + 1)) "," =
        specPlaceholders (rest.length + 1) := by
      rw [buildPlaceholders_succ_eq, goTrimSuffix_append_comma]
    unfold InsertRelationIgnore
    simp only [hti, hrel, hjoin, hpkv, hfld]
    cases d <;> simp [hval, flatten_pairs_eq_alternating, alternatingArgs]

/-- Witness for C3 at the README fixtures: the three dialect idioms on
non-empty identifier sets, and the empty-set no-op. -/
theorem insertRelationIgnore_dialects_witness :
    InsertRelationIgnore ⟨.sqlite3, metaJoin⟩
        (bookRec [.goString "c1", .goString "c2"]) "category_id_list" =
      .ok (some ⟨"INSERT OR IGNORE INTO book_category(book_id,category_id) VALUES (?,?),(?,?)",
        [vstr "book_0001", vstr "c1", vstr "book_0001", vstr "c2"]⟩) ∧
    InsertRelationIgnore ⟨.mysql, metaJoin⟩
        (bookRec [.goString "c1"]) "category_id_list" =
      .ok (some ⟨"INSERT IGNORE INTO book_category(book_id,category_id) VALUES (?,?)",
        [vstr "book_0001", vstr "c1"]⟩) ∧
    InsertRelationIgnore ⟨.postgres, metaJoin⟩
        (bookRec [.goString "c1", .goString "c2"]) "category_id_list" =
      .ok (some ⟨"INSERT INTO book_category(book_id,category_id) VALUES (?,?),(?,?) ON CONFLICT DO NOTHING",
        [vstr "book_0001", vstr "c1", vstr "book_0001", vstr "c2"]⟩) ∧
    InsertRelationIgnore ⟨.sqlite3, metaJoin⟩ (bookRec []) "category_id_list" =
      .ok none := by
  refine ⟨?_, ?_, ?_, ?_⟩
  · exact ((insertRelationIgnore_dialects .sqlite3 metaJoin
      (bookRec [.goString "c1", .goString "c2"]) "category_id_list"
      ((ForTypeKey metaJoin "Book").getD {})
      ((ForName metaJoin "book_category").getD {})
      "category_id_list" "CategoryIDList" "book_category" "book_id"
      "category_id" "book_id" [] [.goString "c1", .goString "c2"]
      (by decide) (by decide) (by decide) (by decide) (by decide)).2
      (by decide)).trans (by decide)
  · exact ((insertRelationIgnore_dialects .mysql metaJoin
      (bookRec [.goString "c1"]) "category_id_list"
      ((ForTypeKey metaJoin "Book").getD {})
      ((ForName metaJoin "book_category").getD {})
      "category_id_list" "CategoryIDList" "book_category" "book_id"
      "category_id" "book_id" [] [.goString "c1"]
      (by decide) (by decide) (by decide) (by decide) (by decide)).2
      (by decide)).trans (by decide)
  · exact ((insertRelationIgnore_dialects .postgres metaJoin
      (bookRec [.goString "c1", .goString "c2"]) "category_id_list"
      ((ForTypeKey metaJoin "Book").getD {})
      ((ForName metaJoin "book_category").getD {})
      "category_id_list" "CategoryIDList" "book_category" "book_id"
      "category_id" "book_id" [] [.goString "c1", .goString "c2"]
      (by decide) (by decide) (by decide) (by decide) (by decide)).2
      (by decide)).trans (by decide)
  · exact (insertRelationIgnore_dialects .sqlite3 metaJoin
      (bookRec []) "category_id_list"
      ((ForTypeKey metaJoin "Book").getD {})
      ((ForName metaJoin "book_category").getD {})
      "category_id_list" "CategoryIDList" "book_category" "book_id"
      "category_id" "book_id" [] []
      (by decide) (by decide) (by decide) (by decide) (by decide)).1 rfl

/-! ## C7: HasMany / HasOne selects -/

/-- C7: for HasMany and HasOne, the generated select lists all the target
entity's storage-mapped columns (SQLFields with keys) from the target
table, and its sole predicate equates the relation's sql_other_id_field
column with the record's first key-field value — only the first key field
is used, whatever the rest of `sqlPKFields` contains. -/
theorem selectRelation_single_fk :
    (∀ b : Builder, ∀ o : GoRecord, ∀ n : String, ∀ ti targetTI : TableInfo,
      ∀ rname gvf soif : String, ∀ fld : GoField, ∀ v : GoValue,
      ∀ k : String, ∀ ks : List String,
      metaFor b.meta o = some ti →
      ti.relationNamed n = some (.hasMany rname gvf soif) →
      fieldEntryByGoName o gvf = some (fld, v) →
      ForTypeRef b.meta (elemDerefTypeRef fld.typeRef) = some targetTI →
      ti.sqlPKFields = k :: ks →
      SelectRelationPtr b o n =
        .ok (⟨targetTI.SQLFields true, targetTI.sqlName, [],
              [(soif ++ " = ?", [sqlFieldValue o k])]⟩, gvf)) ∧
    (∀ b : Builder, ∀ o : GoRecord, ∀ n : String, ∀ ti targetTI : TableInfo,
      ∀ rname gvf soif : String, ∀ fld : GoField, ∀ v : GoValue,
      ∀ k : String, ∀ ks : List String,
      metaFor b.meta o = some ti →
      ti.relationNamed n = some (.hasOne rname gvf soif) →
      fieldEntryByGoName o gvf = some (fld, v) →
      ForTypeRef b.meta (derefTypeRef fld.typeRef) = some targetTI →
      ti.sqlPKFields = k :: ks →
      SelectRelationPtr b o n =
        .ok (⟨targetTI.SQLFields true, targetTI.sqlName, [],
              [(soif ++ " = ?", [sqlFieldValue o k])]⟩, gvf)) := by
  constructor <;>
  · intro b o n ti targetTI rname gvf soif fld v k ks hti hrel hfld htgt hpk
    have hpkv : ti.PKValues o =
        sqlFieldValue o k :: ks.map (fun s => sqlFieldValue o s) := by
      simp [TableInfo.PKValues, hpk]
    unfold SelectRelationPtr
    simp only [hti, hrel, hfld, htgt, hpkv]

/-- Witness for C7: the README Author has_many book_list and Category
has_one category_info scenarios. -/
theorem selectRelation_single_fk_witness :
    SelectRelationPtr ⟨.sqlite3, metaAuthor⟩ authorRec "book_list" =
      .ok (⟨["book_id", "author_id", "title"], "book", [],
            [("author_id = ?", [vstr "author_0001"])]⟩, "BookList") ∧
    SelectRelationPtr ⟨.sqlite3, metaHasOne⟩ categoryHRec "category_info" =
      .ok (⟨["category_info_id", "category_id"], "category_info", [],
            [("category_id = ?", [vstr "category_0001"])]⟩, "CategoryInfo") := by
  constructor
  · exact (selectRelation_single_fk.1 ⟨.sqlite3, metaAuthor⟩ authorRec
      "book_list"
      ((ForTypeKey metaAuthor "Author").getD {})
      ((ForTypeKey metaAuthor "Book").getD {})
      "book_list" "BookList" "author_id"
      ⟨"BookList", "-", "has_many", .slice (.named "Book")⟩ (.goSlice [])
      "author_id" []
      (by decide) (by decide) (by decide) (by decide) (by decide)).trans
      (by decide)
  · exact (selectRelation_single_fk.2 ⟨.sqlite3, metaHasOne⟩ categoryHRec
      "category_info"
      ((ForTypeKey metaHasOne "Category").getD {})
      ((ForTypeKey metaHasOne "CategoryInfo").getD {})
      "category_info" "CategoryInfo" "category_id"
      ⟨"CategoryInfo", "-", "has_one", .ptr (.named "CategoryInfo")⟩
      (.scalar .goNil) "category_id" []
      (by decide) (by decide) (by decide) (by decide) (by decide)).trans
      (by decide)

/-! ## C8: relation target handles -/

/-- Writing through the first field with a Go name and reading that name
back yields the written value, provided the field exists. -/
theorem find_setFieldList (l : List (GoField × GoValue)) (gn : String)
    (v : GoValue) (h : (l.find? (fun p => p.1.goName == gn)).isSome) :
    ((setFieldList gn v l).find? (fun p => p.1.goName == gn)).map Prod.snd =
      some v := by
  induction l with
  | nil => simp at h
  | cons p rest ih =>
    by_cases hp : p.1.goName == gn
    · simp [setFieldList, hp, List.find?_cons]
    · simp only [List.find?_cons, hp, Bool.false_eq_true] at h
      simp only [setFieldList, hp, Bool.false_eq_true, if_false]
      simp only [List.find?_cons, hp, Bool.false_eq_true]
      exact ih h

/-- C8: RelationTargetPtr yields the nil sentinel exactly when the relation
name is unknown; for every known relation whose declared value field exists
on the record, it returns that field's address, and a write through the
address is observable by reading the field directly on the record. -/
theorem relationTargetPtr_addresses_field (rm : List (String × Relation))
    (o : GoRecord) (n : String) :
    (RelationTargetPtr rm o n = .ok none ↔ assocGet rm n = none) ∧
    (∀ r : Relation, ∀ p : GoField × GoValue,
      assocGet rm n = some r →
      fieldEntryByGoName o r.relationGoValueField = some p →
      RelationTargetPtr rm o n = .ok (some r.relationGoValueField) ∧
      ∀ v, fieldByGoName (setFieldByGoName o r.relationGoValueField v)
             r.relationGoValueField = some v) := by
  constructor
  · unfold RelationTargetPtr
    cases h : assocGet rm n with
    | none => simp
    | some r =>
      simp only [h]
      cases hf : fieldByGoName o r.relationGoValueField <;> simp
  · intro r p h hp
    have hf : fieldByGoName o r.relationGoValueField = some p.2 := by
      unfold fieldByGoName
      unfold fieldEntryByGoName at hp
      rw [hp]
      rfl
    constructor
    · unfold RelationTargetPtr
      simp only [h, hf]
    · intro v
      unfold fieldByGoName setFieldByGoName
      apply find_setFieldList
      unfold fieldEntryByGoName at hp
      simp [hp]

/-- Witness for C8 on the Book fixture: the handle addresses the
CategoryIDList field, a write through it is read back, and an unknown
relation name yields the nil sentinel. -/
theorem relationTargetPtr_addresses_field_witness :
    RelationTargetPtr ((ForTypeKey metaJoin "Book").getD {}).relationMap
        (bookRec []) "category_id_list" = .ok (some "CategoryIDList") ∧
    fieldByGoName
        (setFieldByGoName (bookRec []) "CategoryIDList"
          (.goSlice [.goString "x"])) "CategoryIDList" =
      some (.goSlice [.goString "x"]) ∧
    RelationTargetPtr ((ForTypeKey metaJoin "Book").getD {}).relationMap
        (bookRec []) "missing" = .ok none := by
  have h := relationTargetPtr_addresses_field
    ((ForTypeKey metaJoin "Book").getD {}).relationMap (bookRec [])
    "category_id_list"
  have h2 := h.2
    (.belongsToManyIDs "category_id_list" "CategoryIDList" "book_category"
      "book_id" "category_id")
    (⟨"CategoryIDList", "-", "belongs_to_many_ids,join_name=book_category",
       .slice stringRef⟩, .goSlice [])
    (by decide) (by decide)
  refine ⟨h2.1, h2.2 (.goSlice [.goString "x"]), ?_⟩
  exact (relationTargetPtr_addresses_field
    ((ForTypeKey metaJoin "Book").getD {}).relationMap (bookRec [])
    "missing").1.mpr (by decide)

/-! ## C6: parse failure leaves the registry untouched -/

/-- A storage shape with no key fields, whose parse fails. -/
def noPKType : GoType := ⟨"NoPK", [⟨"Name", "name", "", stringRef⟩]⟩

/-- C6: when parse returns a configuration error, the error propagates and
the registry is exactly as before, so neither a lookup by type nor a lookup
by the logical name finds a descriptor for the entity (when none was
registered previously). -/
theorem parse_config_error_registers_nothing (m : Meta) (t : GoType)
    (name e : String) (h : (ParseTypeNamed m t name).2 = .err e) :
    (ParseTypeNamed m t name).1 = m ∧
    (ForTypeKey m t.typeName = none →
      ForTypeKey (ParseTypeNamed m t name).1 t.typeName = none) ∧
    (ForName m name = none → ForName (ParseTypeNamed m t name).1 name = none) := by
  unfold ParseTypeNamed at h ⊢
  cases hp : parseTableInfo t name with
  | ok ti => rw [hp] at h; exact GoResult.noConfusion h
  | err e2 => exact ⟨rfl, fun hh => hh, fun hh => hh⟩
  | panicked => rw [hp] at h; exact GoResult.noConfusion h

/-- Witness for C6: parsing the key-less NoPK shape against the registry
holding Widget changes nothing and registers nothing. -/
theorem parse_config_error_registers_nothing_witness :
    (ParseTypeNamed metaWidget noPKType "no_pk").1 = metaWidget ∧
    ForTypeKey (ParseTypeNamed metaWidget noPKType "no_pk").1 "NoPK" = none ∧
    ForName (ParseTypeNamed metaWidget noPKType "no_pk").1 "no_pk" = none := by
  have h := parse_config_error_registers_nothing metaWidget noPKType "no_pk"
    "no primary key fields found for type NoPK" (by decide)
  exact ⟨h.1, h.2.1 (by decide), h.2.2 (by decide)⟩

/-! ## C10: a pk-tagged field never becomes the version field -/

/-- AddRelation only rewrites the relation map. -/
@[simp] theorem addRelation_sqlVersionField (ti : TableInfo) (r : Relation) :
    (ti.addRelation r).sqlVersionField = ti.sqlVersionField := rfl

/-- AddRelation keeps the key field list. -/
@[simp] theorem addRelation_sqlPKFields (ti : TableInfo) (r : Relation) :
    (ti.addRelation r).sqlPKFields = ti.sqlPKFields := rfl

/-- AddRelation keeps the logical name. -/
@[simp] theorem addRelation_name (ti : TableInfo) (r : Relation) :
    (ti.addRelation r).name = ti.name := rfl

/-- A successful buildBTM only adds a relation. -/
theorem buildBTM_ok_addRelation (ti : TableInfo) (f : GoField)
    (tagv : TagValues) (b : Bool) (ti' : TableInfo)
    (h : buildBTM ti f tagv b = .ok ti') :
    ∃ r, ti' = ti.addRelation r := by
  unfold buildBTM at h
  dsimp only at h
  split at h
  · exact GoResult.noConfusion h
  · split at h
    · exact GoResult.noConfusion h
    · split at h
      · split at h
        · exact GoResult.noConfusion h
        · exact ⟨_, (GoResult.ok.inj h).symm⟩
      · exact ⟨_, (GoResult.ok.inj h).symm⟩

/-- The simple relation blocks only add relations: the scalar descriptor
fields survive unchanged. -/
theorem processSimpleRelations_scalar (ti : TableInfo) (f : GoField) :
    (processSimpleRelations ti f).sqlVersionField = ti.sqlVersionField ∧
    (processSimpleRelations ti f).sqlPKFields = ti.sqlPKFields ∧
    (processSimpleRelations ti f).name = ti.name := by
  unfold processSimpleRelations
  dsimp only
  split <;> split <;> split <;> simp

/-- A successful processRelations leaves version field, key fields and name
unchanged. -/
theorem processRelations_ok_scalar (ti : TableInfo) (f : GoField)
    (ti' : TableInfo) (h : processRelations ti f = .ok ti') :
    ti'.sqlVersionField = ti.sqlVersionField ∧
    ti'.sqlPKFields = ti.sqlPKFields ∧ ti'.name = ti.name := by
  have hs := processSimpleRelations_scalar ti f
  unfold processRelations at h
  dsimp only at h
  split at h
  case h_1 => exact GoResult.noConfusion h
  case h_2 => exact GoResult.noConfusion h
  case h_3 ti1 heq =>
    have h1 : ti1.sqlVersionField = ti.sqlVersionField ∧
        ti1.sqlPKFields = ti.sqlPKFields ∧ ti1.name = ti.name := by
      by_cases hc : tvHas (structTagToValues f.tmetaTag) "belongs_to_many" = true
      · rw [if_pos hc] at heq
        obtain ⟨r, hr⟩ := buildBTM_ok_addRelation _ _ _ _ _ heq
        subst hr
        simpa using hs
      · rw [if_neg hc] at heq
        rw [← GoResult.ok.inj heq]
        exact hs
    by_cases hc2 : tvHas (structTagToValues f.tmetaTag) "belongs_to_many_ids" = true
    · rw [if_pos hc2] at h
      obtain ⟨r, hr⟩ := buildBTM_ok_addRelation _ _ _ _ _ h
      subst hr
      simpa using h1
    · rw [if_neg hc2] at h
      rw [← GoResult.ok.inj h]
      exact h1

/-- processKeyVersion keeps the logical name. -/
theorem processKeyVersion_name (ti : TableInfo) (f : GoField) :
    (processKeyVersion ti f).name = ti.name := by
  unfold processKeyVersion
  split
  · rfl
  · split
    · split <;> rfl
    · split <;> rfl

/-- Case analysis of the key/version tail: either the version field is
untouched (with the key list possibly extended by this field's column), or
this field is storage mapped, version tagged and not pk tagged, and its
column becomes the version field (key list untouched). -/
theorem processKeyVersion_cases (ti : TableInfo) (f : GoField) :
    ((processKeyVersion ti f).sqlVersionField = ti.sqlVersionField ∧
     ((processKeyVersion ti f).sqlPKFields = ti.sqlPKFields ∨
      (processKeyVersion ti f).sqlPKFields = ti.sqlPKFields ++ [dbName f])) ∨
    (storageMapped f = true ∧
     tvHas (structTagToValues f.tmetaTag) "version" = true ∧
     tvHas (structTagToValues f.tmetaTag) "pk" = false ∧
     (processKeyVersion ti f).sqlVersionField = dbName f ∧
     (processKeyVersion ti f).sqlPKFields = ti.sqlPKFields) := by
  unfold processKeyVersion
  split
  · exact Or.inl ⟨rfl, Or.inl rfl⟩
  next hsm =>
    split
    next hpk =>
      split
      · exact Or.inl ⟨rfl, Or.inr rfl⟩
      · exact Or.inl ⟨rfl, Or.inr rfl⟩
    next hpk =>
      split
      next hver =>
        refine Or.inr ⟨?_, hver, ?_, rfl, rfl⟩
        · simp only [storageMapped]
          simpa using hsm
        · simpa using hpk
      · exact Or.inl ⟨rfl, Or.inl rfl⟩

/-- Field-walk step invariant combining the relation and key/version parts. -/
theorem processField_ok_inv (ti : TableInfo) (f : GoField) (ti' : TableInfo)
    (h : processField ti f = .ok ti') :
    ti'.name = ti.name ∧
    (ti'.sqlPKFields = ti.sqlPKFields ∨
     ti'.sqlPKFields = ti.sqlPKFields ++ [dbName f]) ∧
    (ti'.sqlVersionField = ti.sqlVersionField ∨
     (storageMapped f = true ∧
      tvHas (structTagToValues f.tmetaTag) "version" = true ∧
      tvHas (structTagToValues f.tmetaTag) "pk" = false ∧
      ti'.sqlVersionField = dbName f)) := by
  unfold processField at h
  cases hr : processRelations ti f with
  | err e => rw [hr] at h; exact GoResult.noConfusion h
  | panicked => rw [hr] at h; exact GoResult.noConfusion h
  | ok ti1 =>
    rw [hr] at h
    have h1 := processRelations_ok_scalar ti f ti1 hr
    have hti' : ti' = processKeyVersion ti1 f := (GoResult.ok.inj h).symm
    subst hti'
    have hk := processKeyVersion_cases ti1 f
    refine ⟨(processKeyVersion_name ti1 f).trans h1.2.2, ?_, ?_⟩
    · rcases hk with ⟨_, hpk | hpk⟩ | ⟨_, _, _, _, hpk⟩ <;>
        rw [hpk, h1.2.1] <;> simp
    · rcases hk with ⟨hv, _⟩ | ⟨hsm, hver, hpk, hv, _⟩
      · exact Or.inl (hv.trans h1.1)
      · exact Or.inr ⟨hsm, hver, hpk, hv⟩

/-- Walk invariant: a successful walk either leaves the version field as it
started, or some walked field is storage mapped, version tagged, not pk
tagged, and supplies the final version column. -/
theorem parseFieldsLoop_version (fs : List GoField) (ti ti' : TableInfo)
    (h : parseFieldsLoop ti fs = .ok ti') :
    ti'.sqlVersionField = ti.sqlVersionField ∨
    ∃ f ∈ fs, storageMapped f = true ∧
      tvHas (structTagToValues f.tmetaTag) "version" = true ∧
      tvHas (structTagToValues f.tmetaTag) "pk" = false ∧
      ti'.sqlVersionField = dbName f := by
  induction fs generalizing ti with
  | nil =>
    unfold parseFieldsLoop at h
    exact Or.inl (congrArg TableInfo.sqlVersionField (GoResult.ok.inj h).symm)
  | cons f rest ih =>
    unfold parseFieldsLoop at h
    cases hf : processField ti f with
    | err e => rw [hf] at h; exact GoResult.noConfusion h
    | panicked => rw [hf] at h; exact GoResult.noConfusion h
    | ok ti1 =>
      rw [hf] at h
      rcases ih ti1 h with h1 | ⟨g, hg, hprops⟩
      · rcases (processField_ok_inv ti f ti1 hf).2.2 with h2 | h2
        · exact Or.inl (h1.trans h2)
        · exact Or.inr ⟨f, List.mem_cons_self f rest,
            h2.1, h2.2.1, h2.2.2.1, h1.trans h2.2.2.2⟩
      · exact Or.inr ⟨g, List.mem_cons_of_mem f hg, hprops⟩

/-- The TableInfo a parse starts from carries no version field. -/
theorem init_sqlVersionField (t : GoType) (name : String) :
    (TableInfo.setGoType (TableInfo.setName {} name) t).sqlVersionField = "" := by
  unfold TableInfo.setGoType TableInfo.setName TableInfo.setSQLName
  dsimp only
  split <;> (try split) <;> rfl

/-- C10: in every successfully parsed type with optimistic locking enabled,
the version column comes from a storage-mapped field that carries the
`version` tag and not the `pk` tag — a field tagged with both is consumed
by the pk branch (which `continue`s) and never becomes the version field. -/
theorem version_field_never_pk (t : GoType) (name : String) (ti : TableInfo)
    (hok : parseTableInfo t name = .ok ti) (hvf : ti.sqlVersionField ≠ "") :
    ∃ f ∈ t.fields, dbName f = ti.sqlVersionField ∧ storageMapped f = true ∧
      tvHas (structTagToValues f.tmetaTag) "version" = true ∧
      tvHas (structTagToValues f.tmetaTag) "pk" = false := by
  unfold parseTableInfo at hok
  dsimp only at hok
  split at hok
  case h_2 => exact GoResult.noConfusion hok
  case h_3 => exact GoResult.noConfusion hok
  case h_1 ti2 hl =>
    have hti : ti2 = ti := by
      by_cases hlen : ti2.sqlPKFields.length < 1
      · rw [if_pos hlen] at hok; exact GoResult.noConfusion hok
      · rw [if_neg hlen] at hok; exact GoResult.ok.inj hok
    subst hti
    rcases parseFieldsLoop_version t.fields _ _ hl with h1 | ⟨f, hf, hm⟩
    · exact absurd (h1.trans (init_sqlVersionField t name)) hvf
    · exact ⟨f, hf, hm.2.2.2.symm, hm.1, hm.2.1, hm.2.2.1⟩

/-- Witness for C10 on the versioned Widget shape. -/
theorem version_field_never_pk_witness :
    ∃ f ∈ widgetType.fields, dbName f = "version" ∧ storageMapped f = true ∧
      tvHas (structTagToValues f.tmetaTag) "version" = true ∧
      tvHas (structTagToValues f.tmetaTag) "pk" = false := by
  have h := version_field_never_pk widgetType "widget"
    ((ForTypeKey metaWidget "Widget").getD {}) (by decide) (by decide)
  simpa using h

/-! ## C4: belongs_to_many option requirements and the other-id guess -/

/-- Removing the first occurrence of the empty pattern changes nothing
(Go inserts the empty replacement). -/
theorem listRemoveFirst_nil_pat (s : List Char) : listRemoveFirst [] s = s := by
  induction s with
  | nil => rfl
  | cons c rest ih => simp [listRemoveFirst]

/-- Removing a pattern that does not occur changes nothing. -/
theorem listRemoveFirst_not_infix (pat s : List Char) (h : ¬ pat <:+: s) :
    listRemoveFirst pat s = s := by
  induction s with
  | nil => rfl
  | cons c rest ih =>
    have hnp : pat.isPrefixOf (c :: rest) = false := by
      rw [Bool.eq_false_iff]
      intro hh
      exact h (List.isPrefixOf_iff_prefix.mp hh).isInfix
    unfold listRemoveFirst
    simp only [hnp, Bool.false_eq_true, if_false]
    rw [ih (fun hinf => h (hinf.trans (List.suffix_cons c rest).isInfix))]

/-- Removing an occurring non-empty pattern strictly shortens the list. -/
theorem listRemoveFirst_length_lt (pat s : List Char) (hne : pat ≠ [])
    (h : pat <:+: s) : (listRemoveFirst pat s).length < s.length := by
  induction s with
  | nil => exact absurd (List.infix_nil.mp h) hne
  | cons c rest ih =>
    unfold listRemoveFirst
    by_cases hp : pat.isPrefixOf (c :: rest) = true
    · simp only [hp, if_true]
      have hle : pat.length ≤ (c :: rest).length :=
        (List.isPrefixOf_iff_prefix.mp hp).length_le
      have hpos : 0 < pat.length := List.length_pos.mpr hne
      rw [List.length_drop]
      simp only [List.length_cons] at hle ⊢
      omega
    · simp only [hp, Bool.false_eq_true, if_false]
      have hres : pat <:+: rest := by
        rcases List.infix_cons_iff.mp h with hpre | hinf
        · exact absurd (List.isPrefixOf_iff_prefix.mpr hpre) hp
        · exact hinf
      simpa using Nat.succ_lt_succ (ih hres)

/-- strings.Replace with count 1 leaves the string unchanged when the
pattern is empty or does not occur. -/
theorem goReplace1_eq_self (s old : String)
    (h : old = "" ∨ goContains s old = false) : goReplace1 s old = s := by
  apply String.ext
  rcases h with h | h
  · subst h
    exact listRemoveFirst_nil_pat s.toList
  · refine listRemoveFirst_not_infix old.toList s.toList ?_
    simpa [goContains] using h

/-- strings.Replace with count 1 changes the string when a non-empty
pattern occurs. -/
theorem goReplace1_beq_false (s old : String) (hne : old ≠ "")
    (hc : goContains s old = true) : (goReplace1 s old == s) = false := by
  have hpat : old.toList ≠ [] := by
    intro hh
    exact hne (String.ext hh)
  have hlt := listRemoveFirst_length_lt old.toList s.toList hpat
    (by simpa [goContains] using hc)
  refine beq_eq_false_iff_ne.mpr ?_
  intro heq
  have hdata : listRemoveFirst old.toList s.toList = s.toList :=
    congrArg String.data heq
  rw [hdata] at hlt
  exact Nat.lt_irrefl _ hlt

/-- processKeyVersion never touches the relation map. -/
theorem processKeyVersion_relationMap (ti : TableInfo) (f : GoField) :
    (processKeyVersion ti f).relationMap = ti.relationMap := by
  unfold processKeyVersion
  split
  · rfl
  · split
    · split <;> rfl
    · split <;> rfl

/-- An anonymous (empty-named) shape carrying the guessable join name. -/
def anonBTMType : GoType :=
  ⟨"",
   [⟨"BookID", "book_id", "pk", stringRef⟩,
    ⟨"CategoryIDList", "-", "belongs_to_many_ids,join_name=book_category",
      .slice stringRef⟩]⟩

/-- C4 counterexample: with an empty logical name (an anonymous struct
parsed through Parse/ParseType, or ParseTypeNamed with name ""), the join
name `book_category` does contain the logical name "" as a substring, yet
parse still fails demanding sql_other_id_field — strings.Replace removes
nothing, so the claim's contains-criterion is not the code's criterion. -/
theorem parse_btm_guess_contains_cx :
    goContains "book_category" "" = true ∧
    (ParseTypeNamed [] anonBTMType "").2 =
      .err "sql_other_id_field is required for relation category_id_list" := by
  exact ⟨by decide, by decide⟩

/-- The relation built by either many-to-many block carries the computed
relation name. -/
theorem mkBTMRel_relationName (b : Bool) (n gvf j s o : String) :
    (mkBTMRel b n gvf j s o).relationName = n := by
  cases b <;> rfl

/-- C4, amended: for a field carrying a belongs_to_many (`isIDs = false`)
or belongs_to_many_ids (`isIDs = true`) annotation, join_name is required
unconditionally; once the sql_id_field resolution (explicit option, else
the head of the accumulated key list) yields a value, an absent
sql_other_id_field errs whenever the entity name is empty or not contained
in the join name, and otherwise the guess is the join name with the first
occurrence of the entity name removed, underscore-trimmed, with `_id`
appended. -/
theorem processField_btm_options (ti : TableInfo) (f : GoField) (isIDs : Bool)
    (hbtm : tvHas (structTagToValues f.tmetaTag) "belongs_to_many" =
      (isIDs == false))
    (hids : tvHas (structTagToValues f.tmetaTag) "belongs_to_many_ids" =
      (isIDs == true)) :
    (tvGet (structTagToValues f.tmetaTag) "join_name" = "" →
      processField ti f = .err ("join_name not specified for relation " ++
        defaultRelName (structTagToValues f.tmetaTag) f)) ∧
    (tvGet (structTagToValues f.tmetaTag) "join_name" ≠ "" →
     tvGet (structTagToValues f.tmetaTag) "sql_other_id_field" = "" →
     ∀ sid : String,
      (if tvGet (structTagToValues f.tmetaTag) "sql_id_field" == "" then
        ti.sqlPKFields.head?
       else some (tvGet (structTagToValues f.tmetaTag) "sql_id_field")) =
        some sid →
      ((ti.name = "" ∨
          goContains (tvGet (structTagToValues f.tmetaTag) "join_name")
            ti.name = false →
        processField ti f =
          .err ("sql_other_id_field is required for relation " ++
            defaultRelName (structTagToValues f.tmetaTag) f)) ∧
       (ti.name ≠ "" →
        goContains (tvGet (structTagToValues f.tmetaTag) "join_name")
          ti.name = true →
        ∃ ti', processField ti f = .ok ti' ∧
          ti'.relationNamed (defaultRelName (structTagToValues f.tmetaTag) f) =
            some (mkBTMRel isIDs
              (defaultRelName (structTagToValues f.tmetaTag) f) f.goName
              (tvGet (structTagToValues f.tmetaTag) "join_name") sid
              (goTrimUnderscores
                (goReplace1 (tvGet (structTagToValues f.tmetaTag) "join_name")
                  ti.name) ++ "_id"))))) := by
  have hs := processSimpleRelations_scalar ti f
  have hred : processField ti f =
      match buildBTM (processSimpleRelations ti f) f
          (structTagToValues f.tmetaTag) isIDs with
      | .ok ti2 => .ok (processKeyVersion ti2 f)
      | .err e => .err e
      | .panicked => .panicked := by
    cases isIDs with
    | true =>
      have hbtm1 : tvHas (structTagToValues f.tmetaTag) "belongs_to_many" =
        false := by simpa using hbtm
      have hids1 : tvHas (structTagToValues f.tmetaTag) "belongs_to_many_ids" =
        true := by simpa using hids
      unfold processField processRelations
      dsimp only
      simp only [hbtm1, hids1, Bool.false_eq_true, if_false, if_true]
    | false =>
      have hbtm1 : tvHas (structTagToValues f.tmetaTag) "belongs_to_many" =
        true := by simpa using hbtm
      have hids1 : tvHas (structTagToValues f.tmetaTag) "belongs_to_many_ids" =
        false := by simpa using hids
      unfold processField processRelations
      dsimp only
      simp only [hbtm1, hids1, Bool.false_eq_true, if_false, if_true]
      cases hb : buildBTM (processSimpleRelations ti f) f
          (structTagToValues f.tmetaTag) false <;> rfl
  constructor
  · intro hjoin
    rw [hred]
    unfold buildBTM
    dsimp only
    rw [if_pos (by simp [hjoin])]
  · intro hjoin hso sid hsid
    have hjb : (tvGet (structTagToValues f.tmetaTag) "join_name" == "") = false :=
      beq_eq_false_iff_ne.mpr hjoin
    have hsid1 :
        (if tvGet (structTagToValues f.tmetaTag) "sql_id_field" == "" then
          (processSimpleRelations ti f).sqlPKFields.head?
         else some (tvGet (structTagToValues f.tmetaTag) "sql_id_field")) =
          some sid := by
      rw [hs.2.1]
      exact hsid
    constructor
    · intro hc
      rw [hred]
      unfold buildBTM
      dsimp only
      rw [if_neg (by simp [hjb])]
      simp only [hsid1]
      rw [if_pos (by simp [hso])]
      rw [hs.2.2]
      rw [if_pos (by
        have := goReplace1_eq_self
          (tvGet (structTagToValues f.tmetaTag) "join_name") ti.name hc
        simp [this])]
    · intro hne hc
      rw [hred]
      unfold buildBTM
      dsimp only
      rw [if_neg (by simp [hjb])]
      simp only [hsid1]
      rw [if_pos (by simp [hso])]
      rw [hs.2.2]
      rw [if_neg (by
        have := goReplace1_beq_false
          (tvGet (structTagToValues f.tmetaTag) "join_name") ti.name hne hc
        simp [this])]
      refine ⟨_, rfl, ?_⟩
      rw [TableInfo.relationNamed, processKeyVersion_relationMap]
      show assocGet (assocSet _ _ _) _ = _
      rw [mkBTMRel_relationName isIDs
        (defaultRelName (structTagToValues f.tmetaTag) f) f.goName
        (tvGet (structTagToValues f.tmetaTag) "join_name") sid
        (goTrimUnderscores
          (goReplace1 (tvGet (structTagToValues f.tmetaTag) "join_name")
            ti.name) ++ "_id")]
      exact assocGet_assocSet_self _ _ _

/-- Witness for C4 (amended): on the README Book descriptor, both a
belongs_to_many_ids field and a belongs_to_many field with a defaulted
sql_id_field resolve the guess to category_id; a field without join_name
fails. -/
theorem processField_btm_options_witness :
    (∃ ti', processField ((ForTypeKey metaJoin "Book").getD {})
        ⟨"CategoryIDList", "-", "belongs_to_many_ids,join_name=book_category",
          .slice stringRef⟩ = .ok ti' ∧
      ti'.relationNamed "category_id_list" =
        some (.belongsToManyIDs "category_id_list" "CategoryIDList"
          "book_category" "book_id" "category_id")) ∧
    (∃ ti', processField ((ForTypeKey metaJoin "Book").getD {})
        ⟨"CategoryList", "-", "belongs_to_many,join_name=book_category",
          .slice (.named "Category")⟩ = .ok ti' ∧
      ti'.relationNamed "category_list" =
        some (.belongsToMany "category_list" "CategoryList"
          "book_category" "book_id" "category_id")) ∧
    processField ((ForTypeKey metaJoin "Book").getD {})
        ⟨"CategoryIDList", "-", "belongs_to_many_ids", .slice stringRef⟩ =
      .err "join_name not specified for relation category_id_list" := by
  refine ⟨?_, ?_, ?_⟩
  · have h := ((processField_btm_options ((ForTypeKey metaJoin "Book").getD {})
      ⟨"CategoryIDList", "-", "belongs_to_many_ids,join_name=book_category",
        .slice stringRef⟩ true
      (by decide) (by decide)).2
      (by decide) (by decide) "book_id" (by decide)).2 (by decide) (by decide)
    obtain ⟨ti', h1, h2⟩ := h
    refine ⟨ti', h1, ?_⟩
    rw [show ("category_id_list" : String) = defaultRelName (structTagToValues
        (⟨"CategoryIDList", "-", "belongs_to_many_ids,join_name=book_category",
          .slice stringRef⟩ : GoField).tmetaTag)
        ⟨"CategoryIDList", "-", "belongs_to_many_ids,join_name=book_category",
          .slice stringRef⟩ from by decide]
    rw [h2]
    decide
  · have h := ((processField_btm_options ((ForTypeKey metaJoin "Book").getD {})
      ⟨"CategoryList", "-", "belongs_to_many,join_name=book_category",
        .slice (.named "Category")⟩ false
      (by decide) (by decide)).2
      (by decide) (by decide) "book_id" (by decide)).2 (by decide) (by decide)
    obtain ⟨ti', h1, h2⟩ := h
    refine ⟨ti', h1, ?_⟩
    rw [show ("category_list" : String) = defaultRelName (structTagToValues
        (⟨"CategoryList", "-", "belongs_to_many,join_name=book_category",
          .slice (.named "Category")⟩ : GoField).tmetaTag)
        ⟨"CategoryList", "-", "belongs_to_many,join_name=book_category",
          .slice (.named "Category")⟩ from by decide]
    rw [h2]
    decide
  · exact ((processField_btm_options ((ForTypeKey metaJoin "Book").getD {})
      ⟨"CategoryIDList", "-", "belongs_to_many_ids", .slice stringRef⟩ true
      (by decide) (by decide)).1 (by decide)).trans (by decide)

/-! ## C5: the own-side join key default -/

/-- Shape whose many-to-many field precedes its key field. -/
def relFirstType : GoType :=
  ⟨"RelFirst",
   [⟨"CategoryIDList", "-",
      "belongs_to_many_ids,join_name=book_category,sql_other_id_field=category_id",
      .slice stringRef⟩,
    ⟨"BookID", "book_id", "pk", stringRef⟩]⟩

/-- A belongs_to_many_ids field with an explicit other-id and no explicit
sql_id_field. -/
def catIDsField : GoField :=
  ⟨"CategoryIDList", "-",
    "belongs_to_many_ids,join_name=book_category,sql_other_id_field=category_id",
    .slice stringRef⟩

/-- C5 counterexample: when the annotated field is declared before every
key-annotated field, `ti.SQLPKFields()[0]` indexes an empty slice, so parse
panics and produces no descriptor at all — the claim's "regardless of where
the annotated field is declared" fails. -/
theorem parse_relation_before_pk_cx :
    ParseTypeNamed [] relFirstType "book" = ([], .panicked) := by decide

/-- Key fields only accumulate during the walk: the final list extends the
initial one. -/
theorem parseFieldsLoop_pk_append (fs : List GoField) (ti ti' : TableInfo)
    (h : parseFieldsLoop ti fs = .ok ti') :
    ∃ l, ti'.sqlPKFields = ti.sqlPKFields ++ l := by
  induction fs generalizing ti with
  | nil =>
    unfold parseFieldsLoop at h
    exact ⟨[], by rw [← GoResult.ok.inj h]; simp⟩
  | cons f rest ih =>
    unfold parseFieldsLoop at h
    cases hf : processField ti f with
    | err e => rw [hf] at h; exact GoResult.noConfusion h
    | panicked => rw [hf] at h; exact GoResult.noConfusion h
    | ok ti1 =>
      rw [hf] at h
      obtain ⟨l, hl⟩ := ih ti1 h
      rcases (processField_ok_inv ti f ti1 hf).2.1 with h1 | h1
      · exact ⟨l, by rw [hl, h1]⟩
      · exact ⟨dbName f :: l, by rw [hl, h1]; simp⟩

/-- C5, amended: with sql_id_field absent, the many-to-many block panics
when no key field has been accumulated before the annotated field, and
otherwise uses the head of the accumulated key list — which, because key
fields only accumulate in declaration order (third conjunct), is the
entity's first key field whenever some key field precedes the annotated
field. -/
theorem btm_sql_id_field_default (ti : TableInfo) (f : GoField)
    (tagv : TagValues) (isIDs : Bool)
    (hjoin : tvGet tagv "join_name" ≠ "")
    (hsid : tvGet tagv "sql_id_field" = "")
    (hso : tvGet tagv "sql_other_id_field" ≠ "") :
    (ti.sqlPKFields = [] → buildBTM ti f tagv isIDs = .panicked) ∧
    (∀ k : String, ∀ ks : List String, ti.sqlPKFields = k :: ks →
      buildBTM ti f tagv isIDs =
        .ok (ti.addRelation (mkBTMRel isIDs (defaultRelName tagv f) f.goName
          (tvGet tagv "join_name") k (tvGet tagv "sql_other_id_field")))) ∧
    (∀ fs : List GoField, ∀ ti' : TableInfo, parseFieldsLoop ti fs = .ok ti' →
      ∃ l, ti'.sqlPKFields = ti.sqlPKFields ++ l) := by
  have hjb : (tvGet tagv "join_name" == "") = false :=
    beq_eq_false_iff_ne.mpr hjoin
  have hsb : (tvGet tagv "sql_id_field" == "") = true := by simp [hsid]
  have hob : (tvGet tagv "sql_other_id_field" == "") = false :=
    beq_eq_false_iff_ne.mpr hso
  refine ⟨?_, ?_, fun fs ti' h => parseFieldsLoop_pk_append fs ti ti' h⟩
  · intro hpk
    unfold buildBTM
    dsimp only
    rw [if_neg (by simp [hjb])]
    simp only [hsb, if_true, hpk, List.head?]
  · intro k ks hpk
    unfold buildBTM
    dsimp only
    rw [if_neg (by simp [hjb])]
    simp only [hsb, if_true, hpk, List.head?]
    rw [if_neg (by simp [hob])]

/-- Witness for C5 (amended): with no accumulated key field the block
panics; with the Book descriptor's key list it defaults to book_id; and the
walk only appends key fields. -/
theorem btm_sql_id_field_default_witness :
    buildBTM {} catIDsField (structTagToValues catIDsField.tmetaTag) true =
      .panicked ∧
    buildBTM ((ForTypeKey metaJoin "Book").getD {}) catIDsField
        (structTagToValues catIDsField.tmetaTag) true =
      .ok (((ForTypeKey metaJoin "Book").getD {}).addRelation
        (.belongsToManyIDs "category_id_list" "CategoryIDList" "book_category"
          "book_id" "category_id")) ∧
    (∃ l, ({ sqlPKFields := ["book_id"] } : TableInfo).sqlPKFields =
      ({} : TableInfo).sqlPKFields ++ l) := by
  refine ⟨?_, ?_, ?_⟩
  · exact (btm_sql_id_field_default {} catIDsField
      (structTagToValues catIDsField.tmetaTag) true
      (by decide) (by decide) (by decide)).1 rfl
  · exact ((btm_sql_id_field_default ((ForTypeKey metaJoin "Book").getD {})
      catIDsField (structTagToValues catIDsField.tmetaTag) true
      (by decide) (by decide) (by decide)).2.1 "book_id" []
      (by decide)).trans (by decide)
  · exact (btm_sql_id_field_default {} catIDsField
      (structTagToValues catIDsField.tmetaTag) true
      (by decide) (by decide) (by decide)).2.2
      [⟨"BookID", "book_id", "pk", stringRef⟩] { sqlPKFields := ["book_id"] }
      (by decide)

/-! ## C9: last writer wins in the registry -/

/-- A registration sequence applied from the empty registry. -/
def registerSeq (l : List (String × TableInfo)) : Meta :=
  l.foldl (fun m p => SetTableInfo m p.1 p.2) []

/-- No two registry entries share a type key. -/
def keysUnique (m : Meta) : Prop :=
  m.Pairwise (fun a b => a.1 ≠ b.1)

/-- No two registry entries share a logical name. -/
def namesUnique (m : Meta) : Prop :=
  m.Pairwise (fun a b => a.2.name ≠ b.2.name)

/-- Map assignment introduces the new pair and otherwise keeps members. -/
theorem mem_assocSet {α : Type} {m : List (String × α)} {k : String} {v : α}
    {q : String × α} (h : q ∈ assocSet m k v) : q = (k, v) ∨ q ∈ m := by
  induction m with
  | nil => simpa [assocSet] using h
  | cons p rest ih =>
    by_cases hp : (p.1 == k) = true
    · simp only [assocSet, hp, if_true] at h
      rcases List.mem_cons.mp h with h | h
      · exact Or.inl h
      · exact Or.inr (List.mem_cons_of_mem p h)
    · simp only [assocSet, hp, if_false] at h
      rcases List.mem_cons.mp h with h | h
      · exact Or.inr (by simp [h])
      · rcases ih h with h | h
        · exact Or.inl h
        · exact Or.inr (List.mem_cons_of_mem p h)

/-- Map assignment keeps keys pairwise distinct. -/
theorem keysUnique_assocSet {m : Meta} {k : String} {v : TableInfo}
    (h : keysUnique m) : keysUnique (assocSet m k v) := by
  induction m with
  | nil => simp [assocSet, keysUnique]
  | cons p rest ih =>
    rcases List.pairwise_cons.mp h with ⟨hp, hrest⟩
    by_cases hpk : (p.1 == k) = true
    · simp only [assocSet, hpk, if_true]
      refine List.pairwise_cons.mpr ⟨?_, hrest⟩
      intro q hq
      rw [← eq_of_beq hpk]
      exact hp q hq
    · simp only [assocSet, hpk, if_false]
      refine List.pairwise_cons.mpr ⟨?_, ih hrest⟩
      intro q hq
      rcases mem_assocSet hq with rfl | hq2
      · exact fun hh => hpk (by simp [hh])
      · exact hp q hq2

/-- Map assignment keeps names pairwise distinct, provided no existing
entry carries the incoming name. -/
theorem namesUnique_assocSet {m : Meta} {k : String} {v : TableInfo}
    (h : namesUnique m) (hD : ∀ q ∈ m, q.2.name ≠ v.name) :
    namesUnique (assocSet m k v) := by
  induction m with
  | nil => simp [assocSet, namesUnique]
  | cons p rest ih =>
    rcases List.pairwise_cons.mp h with ⟨hp, hrest⟩
    by_cases hpk : (p.1 == k) = true
    · simp only [assocSet, hpk, if_true]
      refine List.pairwise_cons.mpr ⟨?_, hrest⟩
      intro q hq hh
      exact hD q (List.mem_cons_of_mem p hq) hh.symm
    · simp only [assocSet, hpk, if_false]
      refine List.pairwise_cons.mpr
        ⟨?_, ih hrest (fun q hq => hD q (List.mem_cons_of_mem p hq))⟩
      intro q hq
      rcases mem_assocSet hq with rfl | hq2
      · exact hD p (List.mem_cons_self p rest)
      · exact hp q hq2

/-- After assignment under a fresh name, the name scan finds the assigned
type key. -/
theorem typeForName_assocSet {m : Meta} {k : String} {v : TableInfo}
    (hD : ∀ q ∈ m, q.2.name ≠ v.name) :
    typeForName (assocSet m k v) v.name = some k := by
  induction m with
  | nil => simp [assocSet, typeForName]
  | cons p rest ih =>
    by_cases hpk : (p.1 == k) = true
    · simp [assocSet, hpk, typeForName, List.find?_cons]
    · have hD1 : (p.2.name == v.name) = false :=
        beq_eq_false_iff_ne.mpr (hD p (List.mem_cons_self p rest))
      have ihr := ih (fun q hq => hD q (List.mem_cons_of_mem p hq))
      simp only [assocSet, hpk, Bool.false_eq_true, if_false]
      unfold typeForName at ihr ⊢
      simp only [List.find?_cons, hD1]
      exact ihr

/-- After the delete step of SetTableInfo, no surviving entry carries the
incoming logical name. -/
theorem deleted_names {m : Meta} (n : String) (hN : namesUnique m) :
    ∀ q ∈ (match typeForName m n with
           | none => m
           | some k0 => m.filter (fun p => !(p.1 == k0))), q.2.name ≠ n := by
  cases ht : typeForName m n with
  | none =>
    intro q hq hqn
    have hf : m.find? (fun p => p.2.name == n) = none := by
      unfold typeForName at ht
      exact Option.map_eq_none'.mp ht
    have := List.find?_eq_none.mp hf q hq
    simp [hqn] at this
  | some k0 =>
    obtain ⟨q0, hq0find, hq0fst⟩ :
        ∃ q0, m.find? (fun p => p.2.name == n) = some q0 ∧ q0.1 = k0 := by
      unfold typeForName at ht
      cases hf : m.find? (fun p => p.2.name == n) with
      | none => rw [hf] at ht; simp at ht
      | some q0 => rw [hf] at ht; exact ⟨q0, rfl, by simpa using ht⟩
    have hq0mem := List.mem_of_find?_eq_some hq0find
    have hq0name : q0.2.name = n := by simpa using List.find?_some hq0find
    intro q hq hqn
    rw [List.mem_filter] at hq
    have hne : q ≠ q0 := by
      intro hh
      subst hh
      simp [hq0fst] at hq
    have hR := List.Pairwise.forall
      (fun (a b : String × TableInfo) (hab : a.2.name ≠ b.2.name) =>
        fun hh => hab hh.symm) hN hq.1 hq0mem hne
    exact hR (hqn.trans hq0name.symm)

/-- SetTableInfo preserves key and name uniqueness. -/
theorem setTableInfo_inv {m : Meta} (k : String) (ti : TableInfo)
    (hK : keysUnique m) (hN : namesUnique m) :
    keysUnique (SetTableInfo m k ti) ∧ namesUnique (SetTableInfo m k ti) := by
  unfold SetTableInfo
  dsimp only
  have hD := deleted_names ti.name hN
  cases ht : typeForName m ti.name with
  | none =>
    rw [ht] at hD
    exact ⟨keysUnique_assocSet hK, namesUnique_assocSet hN hD⟩
  | some k0 =>
    rw [ht] at hD
    have hsub : List.Sublist (m.filter (fun p => !(p.1 == k0))) m :=
      List.filter_sublist m
    exact ⟨keysUnique_assocSet (hK.sublist hsub),
           namesUnique_assocSet (hN.sublist hsub) hD⟩

/-- SetTableInfo makes both lookups resolve to the new descriptor. -/
theorem setTableInfo_lookups (m : Meta) (k : String) (ti : TableInfo)
    (hN : namesUnique m) :
    ForName (SetTableInfo m k ti) ti.name = some ti ∧
    ForTypeKey (SetTableInfo m k ti) k = some ti := by
  unfold SetTableInfo
  dsimp only
  have hD := deleted_names ti.name hN
  cases ht : typeForName m ti.name with
  | none =>
    rw [ht] at hD
    constructor
    · show ForName (assocSet m k ti) ti.name = some ti
      unfold ForName
      rw [typeForName_assocSet hD]
      exact assocGet_assocSet_self m k ti
    · show assocGet (assocSet m k ti) k = some ti
      exact assocGet_assocSet_self m k ti
  | some k0 =>
    rw [ht] at hD
    constructor
    · show ForName (assocSet (m.filter (fun p => !(p.1 == k0))) k ti) ti.name =
        some ti
      unfold ForName
      rw [typeForName_assocSet hD]
      exact assocGet_assocSet_self _ k ti
    · show assocGet (assocSet (m.filter (fun p => !(p.1 == k0))) k ti) k =
        some ti
      exact assocGet_assocSet_self _ k ti

/-- Every registration sequence keeps the registry invariants. -/
theorem registerSeq_inv (l : List (String × TableInfo)) :
    keysUnique (registerSeq l) ∧ namesUnique (registerSeq l) := by
  suffices h : ∀ m, keysUnique m → namesUnique m →
      keysUnique (l.foldl (fun m p => SetTableInfo m p.1 p.2) m) ∧
      namesUnique (l.foldl (fun m p => SetTableInfo m p.1 p.2) m) by
    exact h [] (by simp [keysUnique]) (by simp [namesUnique])
  induction l with
  | nil => exact fun m hK hN => ⟨hK, hN⟩
  | cons p rest ih =>
    intro m hK hN
    have := setTableInfo_inv p.1 p.2 hK hN
    exact ih (SetTableInfo m p.1 p.2) this.1 this.2

/-- C9: from the empty registry, any registration sequence leaves logical
names pairwise distinct, and registering one more descriptor makes both
the lookup by its logical name and the lookup by its type key return that
newest descriptor. -/
theorem setTableInfo_last_writer_wins (l : List (String × TableInfo))
    (tyName : String) (ti : TableInfo) :
    namesUnique (registerSeq l) ∧
    ForName (registerSeq (l ++ [(tyName, ti)])) ti.name = some ti ∧
    ForTypeKey (registerSeq (l ++ [(tyName, ti)])) tyName = some ti := by
  have hP := registerSeq_inv l
  have happ : registerSeq (l ++ [(tyName, ti)]) =
      SetTableInfo (registerSeq l) tyName ti := by
    unfold registerSeq
    rw [List.foldl_append]
    rfl
  have hl := setTableInfo_lookups (registerSeq l) tyName ti hP.2
  exact ⟨hP.2, happ ▸ hl.1, happ ▸ hl.2⟩

end Tmeta
